import Mathlib

/-!
Shallow embedding of the bgslib background-subtraction library
(`include/bgslib.hpp`) and proofs about its strategy classes
(FrameDifference, AdaptiveBackgroundLearning,
AdaptiveSelectiveBackgroundLearning, WeightedMovingMean).

Modelling conventions:
* 8-bit images (`cv::Mat` of depth `CV_8U`) are `Img`: dimensions plus a
  total pixel function into `ℕ`; real frames have samples `≤ 255`.
* float images (`CV_32F`) are `ImgF` with `ℚ`-valued samples; the C++
  float arithmetic is modelled as exact rational arithmetic.
* `convertTo(_, CV_8U, 255.0/(maxVal-minVal), -minVal)` with the fixed
  field values `minVal = 0.0`, `maxVal = 1.0` (never mutated anywhere in
  the source) is `ofF`: multiply by 255, round, saturate to `[0,255]`.
* OpenCV rounding (`cvRound`) rounds half to even; `saturate_cast<uchar>`
  clamps to `[0,255]`.
-/

namespace bgslib

/-- OpenCV `cvRound`: round to nearest integer, ties to even. -/
def cvRound (q : ℚ) : ℤ :=
  if q - ⌊q⌋ < 1/2 then ⌊q⌋
  else if 1/2 < q - ⌊q⌋ then ⌊q⌋ + 1
  else if ⌊q⌋ % 2 = 0 then ⌊q⌋ else ⌊q⌋ + 1

/-- `saturate_cast<uchar>`: clamp an integer to the byte range. -/
def saturate8 (z : ℤ) : ℕ :=
  if z < 0 then 0 else if 255 < z then 255 else z.toNat

/-- `convertTo(_, CV_8U, 255.0, 0.0)` applied to one sample. -/
def quant (v : ℚ) : ℕ := saturate8 (cvRound (v * 255))

theorem cvRound_eq_of_abs_lt_half (z : ℤ) (q : ℚ) (h : |q - z| < 1/2) :
    cvRound q = z := by
  rw [abs_lt] at h
  obtain ⟨h1, h2⟩ := h
  rcases le_or_lt (z : ℚ) q with hle | hlt
  · have hfloor : ⌊q⌋ = z := by
      rw [Int.floor_eq_iff]
      exact ⟨hle, by linarith⟩
    rw [cvRound, hfloor]
    rw [if_pos (by linarith)]
  · have hfloor : ⌊q⌋ = z - 1 := by
      rw [Int.floor_eq_iff]
      constructor <;> push_cast <;> linarith
    rw [cvRound, hfloor]
    rw [if_neg (by push_cast; linarith), if_pos (by push_cast; linarith)]
    omega

theorem cvRound_intCast (z : ℤ) : cvRound (z : ℚ) = z := by
  apply cvRound_eq_of_abs_lt_half
  simp only [sub_self, abs_zero]
  norm_num

theorem saturate8_of_byte (b : ℕ) (hb : b ≤ 255) : saturate8 (b : ℤ) = b := by
  rw [saturate8]
  rw [if_neg (by omega)]
  rw [if_neg (by omega)]
  simp

/-- Quantization dead zone: if `v` is within half a quantization step
(`1/510` in the normalized domain) of the byte `b`'s normalized value,
converting back to 8 bits returns exactly `b`. -/
theorem quant_near (b : ℕ) (v : ℚ) (hb : b ≤ 255)
    (h : |v - (b : ℚ)/255| < 1/510) : quant v = b := by
  have h255 : |v * 255 - (b : ℚ)| < 1/2 := by
    have : v * 255 - (b : ℚ) = (v - (b : ℚ)/255) * 255 := by ring
    rw [this, abs_mul]
    rw [abs_of_nonneg (by norm_num : (0:ℚ) ≤ 255)]
    linarith
  rw [quant, cvRound_eq_of_abs_lt_half (b : ℤ) _ (by exact_mod_cast h255)]
  exact saturate8_of_byte b hb

/-- Converting a byte to the normalized float domain and back is lossless. -/
theorem quant_byte (x : ℕ) (hx : x ≤ 255) : quant ((x : ℚ)/255) = x := by
  apply quant_near x _ hx
  simp

theorem quant_zero : quant 0 = 0 := by
  have h := quant_byte 0 (by norm_num)
  simpa using h

/-- An 8-bit image: spatial size, channel count, and a total pixel map
`row → col → channel → sample`. -/
structure Img where
  rows : ℕ
  cols : ℕ
  channels : ℕ
  px : ℕ → ℕ → ℕ → ℕ

/-- A float (CV_32F) image with exact rational samples. -/
structure ImgF where
  rows : ℕ
  cols : ℕ
  channels : ℕ
  px : ℕ → ℕ → ℕ → ℚ

/-- `cv::Mat::zeros(size, CV_8UC(ch))`. -/
def zeros8 (r c ch : ℕ) : Img := ⟨r, c, ch, fun _ _ _ => 0⟩

/-- `convertTo(_, CV_32F, 1.0/255.0)`. -/
def toF (a : Img) : ImgF :=
  ⟨a.rows, a.cols, a.channels, fun i j k => (a.px i j k : ℚ) / 255⟩

/-- `convertTo(_, CV_8U, 255.0/(maxVal-minVal), -minVal)` at `minVal = 0`,
`maxVal = 1`. -/
def ofF (a : ImgF) : Img :=
  ⟨a.rows, a.cols, a.channels, fun i j k => quant (a.px i j k)⟩

/-- `cv::absdiff` on 8-bit images. -/
def absdiff8 (a b : Img) : Img :=
  ⟨a.rows, a.cols, a.channels,
    fun i j k => ((a.px i j k : ℤ) - (b.px i j k : ℤ)).natAbs⟩

/-- `cv::absdiff` on float images. -/
def absdiffF (a b : ImgF) : ImgF :=
  ⟨a.rows, a.cols, a.channels, fun i j k => |a.px i j k - b.px i j k|⟩

/-- `cv::cvtColor(_, _, cv::COLOR_BGR2GRAY)` for 8-bit images, using
OpenCV's fixed-point coefficients (shift 14): channel 0 is B, 1 is G,
2 is R. -/
def cvtColorBGR2GRAY (a : Img) : Img :=
  ⟨a.rows, a.cols, 1,
    fun i j _ =>
      (1868 * a.px i j 0 + 9617 * a.px i j 1 + 4899 * a.px i j 2 + 8192) / 16384⟩

/-- The `if (img.channels() == 3) cvtColor(...BGR2GRAY)` pattern. -/
def grayIf3 (a : Img) : Img :=
  if a.channels = 3 then cvtColorBGR2GRAY a else a

/-- `cv::threshold(_, _, t, 255, cv::THRESH_BINARY)` on an 8-bit image:
strictly greater than `t` maps to 255, otherwise 0. -/
def thresholdBinary (t : ℤ) (a : Img) : Img :=
  ⟨a.rows, a.cols, a.channels,
    fun i j k => if t < (a.px i j k : ℤ) then 255 else 0⟩

/-- The exponential blend `alpha * x + (1 - alpha) * b` on float images. -/
def blendF (alpha : ℚ) (x b : ImgF) : ImgF :=
  ⟨x.rows, x.cols, x.channels,
    fun i j k => alpha * x.px i j k + (1 - alpha) * b.px i j k⟩

/-- Insertion into a sorted list (ascending). -/
def insertLe (x : ℕ) : List ℕ → List ℕ
  | [] => [x]
  | y :: ys => if x ≤ y then x :: y :: ys else y :: insertLe x ys

/-- Insertion sort (ascending). -/
def isort (l : List ℕ) : List ℕ := l.foldr insertLe []

/-- Median of a 9-element list: 5th smallest. -/
def med9 (l : List ℕ) : ℕ := (isort l).getD 4 0

/-- Clamp an index into `[0, n)` (OpenCV `BORDER_REPLICATE`). -/
def clampIdx (n : ℕ) (i : ℤ) : ℕ :=
  if i < 0 then 0 else if (n : ℤ) - 1 < i then n - 1 else i.toNat

/-- `cv::medianBlur(_, _, 3)`: per-pixel median of the 3×3 replicated
neighborhood. -/
def medianBlur3 (a : Img) : Img :=
  ⟨a.rows, a.cols, a.channels, fun i j k =>
    med9 [a.px (clampIdx a.rows ((i : ℤ) - 1)) (clampIdx a.cols ((j : ℤ) - 1)) k,
          a.px (clampIdx a.rows ((i : ℤ) - 1)) (clampIdx a.cols (j : ℤ)) k,
          a.px (clampIdx a.rows ((i : ℤ) - 1)) (clampIdx a.cols ((j : ℤ) + 1)) k,
          a.px (clampIdx a.rows (i : ℤ)) (clampIdx a.cols ((j : ℤ) - 1)) k,
          a.px (clampIdx a.rows (i : ℤ)) (clampIdx a.cols (j : ℤ)) k,
          a.px (clampIdx a.rows (i : ℤ)) (clampIdx a.cols ((j : ℤ) + 1)) k,
          a.px (clampIdx a.rows ((i : ℤ) + 1)) (clampIdx a.cols ((j : ℤ) - 1)) k,
          a.px (clampIdx a.rows ((i : ℤ) + 1)) (clampIdx a.cols (j : ℤ)) k,
          a.px (clampIdx a.rows ((i : ℤ) + 1)) (clampIdx a.cols ((j : ℤ) + 1)) k]⟩

theorem med9_zero : med9 [0, 0, 0, 0, 0, 0, 0, 0, 0] = 0 := by decide

theorem med9_const255 : med9 [255, 255, 255, 255, 255, 255, 255, 255, 255] = 255 := by
  decide

/-! ### Textual parameter values

Models of the C++ parameter encoding: `std::stoi` / `std::stod` for
parsing (a parse failure, i.e. no leading digits after optional
whitespace and sign, is the thrown `std::invalid_argument`, modelled as
`none`), `std::to_string` for formatting (`"%d"` for `int`, fixed
six-decimal `"%f"` for `double`). -/

/-- Numeric value of a decimal digit character. -/
def dval (c : Char) : ℕ := c.toNat - 48

/-- Decimal digit test. -/
def isDig (c : Char) : Bool := decide (48 ≤ c.toNat) && decide (c.toNat ≤ 57)

/-- The decimal digit character for `d`. -/
def digitChar (d : ℕ) : Char := Char.ofNat (48 + d)

/-- Accumulate the value of a digit string (most significant first). -/
def readNat (l : List Char) : ℕ := l.foldl (fun a c => 10 * a + dval c) 0

/-- The leading digit run of `l`, as a number; `none` when there is no
leading digit (the `std::invalid_argument` case). -/
def natPart (l : List Char) : Option ℕ :=
  if l.takeWhile isDig = [] then none else some (readNat (l.takeWhile isDig))

/-- `std::stoi` after whitespace skipping: optional sign then digits. -/
def stoiCore (l : List Char) : Option ℤ :=
  match l with
  | [] => none
  | c :: r =>
    if c = '-' then (natPart r).map (fun n => -(n : ℤ))
    else if c = '+' then (natPart r).map (fun n => (n : ℤ))
    else (natPart (c :: r)).map (fun n => (n : ℤ))

/-- Model of `std::stoi`: skip spaces, optional sign, leading digit run
(trailing junk ignored); `none` when no digits can be consumed. -/
def stoiL (l : List Char) : Option ℤ := stoiCore (l.dropWhile (fun c => c == ' '))

/-- `std::stoi` on a `String`. -/
def stoi (s : String) : Option ℤ := stoiL s.data

/-- Split an optional leading sign, returning the sign as a rational. -/
def splitSignQ : List Char → ℚ × List Char
  | [] => (1, [])
  | c :: r => if c = '-' then (-1, r) else if c = '+' then (1, r) else (1, c :: r)

/-- Split an optional leading sign, returning the sign as an integer. -/
def splitSignZ : List Char → ℤ × List Char
  | [] => (1, [])
  | c :: r => if c = '-' then (-1, r) else if c = '+' then (1, r) else (1, c :: r)

/-- Value of an optional exponent suffix (`e`/`E`, sign, digits); an
absent or malformed exponent contributes 0 (strtod consumes nothing). -/
def expVal (l : List Char) : ℤ :=
  match l with
  | [] => 0
  | c :: r =>
    if c = 'e' ∨ c = 'E' then
      let p := splitSignZ r
      if p.2.takeWhile isDig = [] then 0 else p.1 * readNat (p.2.takeWhile isDig)
    else 0

/-- `std::stod` after whitespace skipping and sign splitting. -/
def stodCore (sgn : ℚ) (l : List Char) : Option ℚ :=
  let ip := l.takeWhile isDig
  let l3 := l.dropWhile isDig
  let fq : List Char × List Char :=
    match l3 with
    | [] => ([], [])
    | c :: r => if c = '.' then (r.takeWhile isDig, r.dropWhile isDig) else ([], l3)
  if ip = [] ∧ fq.1 = [] then none
  else some (sgn * ((readNat ip : ℚ) + (readNat fq.1 : ℚ) / 10 ^ fq.1.length) *
    10 ^ expVal fq.2)

/-- Model of `std::stod`: sign, integer digits, optional fraction,
optional exponent; `none` when no digits can be consumed. -/
def stodL (l : List Char) : Option ℚ :=
  let p := splitSignQ (l.dropWhile (fun c => c == ' '))
  stodCore p.1 p.2

/-- `std::stod` on a `String`. -/
def stod (s : String) : Option ℚ := stodL s.data

/-- Little-endian digit list of a natural number; `fuel` bounds the
recursion depth structurally. -/
def natDigitsRevAux : ℕ → ℕ → List Char
  | 0, _ => []
  | fuel + 1, n =>
    if n < 10 then [digitChar n] else digitChar (n % 10) :: natDigitsRevAux fuel (n / 10)

/-- Little-endian digit list of a natural number. -/
def natDigitsRev (n : ℕ) : List Char := natDigitsRevAux (n + 1) n

/-- Decimal digit characters of `n`, most significant first. -/
def natToChars (n : ℕ) : List Char := (natDigitsRev n).reverse

/-- `std::to_string` for a nonnegative integer. -/
def natToString (n : ℕ) : String := ⟨natToChars n⟩

/-- `std::to_string(int)`. -/
def intToString (z : ℤ) : String :=
  ⟨(if z < 0 then ['-'] else []) ++ natToChars z.natAbs⟩

/-- Zero-pad the decimal digits of `m` on the left to width 6. -/
def pad6 (m : ℕ) : List Char :=
  List.replicate (6 - (natToChars m).length) '0' ++ natToChars m

/-- `std::to_string(double)`: fixed-point `%f` with six decimal places
(round to nearest, ties to even, on the exact rational value). -/
def fmt6 (q : ℚ) : String :=
  ⟨(if cvRound (q * 1000000) < 0 then ['-'] else []) ++
   natToChars ((cvRound (q * 1000000)).natAbs / 1000000) ++
   '.' :: pad6 ((cvRound (q * 1000000)).natAbs % 1000000)⟩

/-- Serialization of a boolean parameter. -/
def boolString (b : Bool) : String := if b then "true" else "false"

/-- Little-endian value of a digit list. -/
def valRev : List Char → ℕ
  | [] => 0
  | c :: r => dval c + 10 * valRev r

theorem dval_digitChar (d : ℕ) (h : d < 10) : dval (digitChar d) = d := by
  interval_cases d <;> decide

theorem isDig_digitChar (d : ℕ) (h : d < 10) : isDig (digitChar d) = true := by
  interval_cases d <;> decide

theorem readNat_from (a : ℕ) (l : List Char) :
    l.foldl (fun a c => 10 * a + dval c) a = a * 10 ^ l.length + readNat l := by
  induction l generalizing a with
  | nil => simp [readNat]
  | cons c r ih =>
    have hr : readNat (c :: r) = dval c * 10 ^ r.length + readNat r := by
      rw [readNat, List.foldl_cons, ih]
      norm_num
    rw [List.foldl_cons, ih, hr, List.length_cons]
    ring

theorem readNat_reverse (l : List Char) : readNat l.reverse = valRev l := by
  induction l with
  | nil => rfl
  | cons c r ih =>
    rw [List.reverse_cons, readNat, List.foldl_append]
    rw [show List.foldl (fun a c => 10 * a + dval c) 0 r.reverse = readNat r.reverse from rfl]
    rw [List.foldl_cons, List.foldl_nil, ih, valRev]
    ring

theorem valRev_natDigitsRevAux :
    ∀ fuel n, n < fuel → valRev (natDigitsRevAux fuel n) = n := by
  intro fuel
  induction fuel with
  | zero => omega
  | succ f ih =>
    intro n hn
    rw [natDigitsRevAux]
    by_cases h : n < 10
    · rw [if_pos h]
      simp [valRev, dval_digitChar n h]
    · rw [if_neg h]
      have h10 : n / 10 < f := by omega
      rw [valRev, ih (n / 10) h10, dval_digitChar (n % 10) (by omega)]
      omega

theorem readNat_natToChars (n : ℕ) : readNat (natToChars n) = n := by
  rw [natToChars, readNat_reverse, natDigitsRev, valRev_natDigitsRevAux (n + 1) n (by omega)]

theorem mem_natDigitsRevAux_isDig :
    ∀ fuel n c, c ∈ natDigitsRevAux fuel n → isDig c = true := by
  intro fuel
  induction fuel with
  | zero => intro n c hc; simp [natDigitsRevAux] at hc
  | succ f ih =>
    intro n c hc
    rw [natDigitsRevAux] at hc
    by_cases h : n < 10
    · rw [if_pos h] at hc
      simp at hc
      rw [hc]
      exact isDig_digitChar n h
    · rw [if_neg h] at hc
      rcases List.mem_cons.mp hc with h1 | h2
      · rw [h1]; exact isDig_digitChar (n % 10) (by omega)
      · exact ih (n / 10) c h2

theorem mem_natToChars_isDig (n : ℕ) (c : Char) (hc : c ∈ natToChars n) :
    isDig c = true := by
  rw [natToChars, List.mem_reverse] at hc
  exact mem_natDigitsRevAux_isDig (n + 1) n c hc

theorem natDigitsRevAux_ne_nil (fuel n : ℕ) (h : 0 < fuel) :
    natDigitsRevAux fuel n ≠ [] := by
  cases fuel with
  | zero => omega
  | succ f =>
    rw [natDigitsRevAux]
    by_cases h10 : n < 10 <;> simp [h10]

theorem natToChars_ne_nil (n : ℕ) : natToChars n ≠ [] := by
  rw [natToChars]
  simp only [ne_eq, List.reverse_eq_nil_iff]
  exact natDigitsRevAux_ne_nil (n + 1) n (by omega)

theorem natDigitsRevAux_length :
    ∀ fuel n k, n < fuel → 0 < k → n < 10 ^ k →
      (natDigitsRevAux fuel n).length ≤ k := by
  intro fuel
  induction fuel with
  | zero => omega
  | succ f ih =>
    intro n k hn hk hnk
    rw [natDigitsRevAux]
    by_cases h : n < 10
    · rw [if_pos h]; simpa using hk
    · rw [if_neg h]
      have hk1 : 1 < k := by
        by_contra hc
        have : k = 1 := by omega
        rw [this] at hnk
        omega
      have hdiv : n / 10 < 10 ^ (k - 1) := by
        rw [Nat.div_lt_iff_lt_mul (by omega)]
        calc n < 10 ^ k := hnk
        _ = 10 ^ (k - 1) * 10 := by
            rw [← pow_succ]
            congr 1
            omega
      have := ih (n / 10) (k - 1) (by omega) (by omega) hdiv
      simp only [List.length_cons]
      omega

theorem natToChars_length_le (n k : ℕ) (hk : 0 < k) (h : n < 10 ^ k) :
    (natToChars n).length ≤ k := by
  rw [natToChars, List.length_reverse]
  exact natDigitsRevAux_length (n + 1) n k (by omega) hk h

theorem takeWhile_all {p : Char → Bool} :
    ∀ l : List Char, (∀ c ∈ l, p c = true) → l.takeWhile p = l := by
  intro l h
  induction l with
  | nil => rfl
  | cons c r ih =>
    rw [List.takeWhile_cons, h c (by simp)]
    simp only [ite_true]
    rw [ih (fun x hx => h x (by simp [hx]))]

theorem dropWhile_all {p : Char → Bool} :
    ∀ l : List Char, (∀ c ∈ l, p c = true) → l.dropWhile p = [] := by
  intro l h
  induction l with
  | nil => rfl
  | cons c r ih =>
    rw [List.dropWhile_cons, h c (by simp)]
    simp only [ite_true]
    exact ih (fun x hx => h x (by simp [hx]))

theorem takeWhile_append_stop {p : Char → Bool} (l₁ l₂ : List Char) (c : Char)
    (h1 : ∀ x ∈ l₁, p x = true) (hc : p c = false) :
    (l₁ ++ c :: l₂).takeWhile p = l₁ := by
  induction l₁ with
  | nil => simp [List.takeWhile_cons, hc]
  | cons a r ih =>
    rw [List.cons_append, List.takeWhile_cons, h1 a (by simp)]
    simp only [ite_true]
    rw [ih (fun x hx => h1 x (by simp [hx]))]

theorem dropWhile_append_stop {p : Char → Bool} (l₁ l₂ : List Char) (c : Char)
    (h1 : ∀ x ∈ l₁, p x = true) (hc : p c = false) :
    (l₁ ++ c :: l₂).dropWhile p = c :: l₂ := by
  induction l₁ with
  | nil => simp [List.dropWhile_cons, hc]
  | cons a r ih =>
    rw [List.cons_append, List.dropWhile_cons, h1 a (by simp)]
    simp only [ite_true]
    exact ih (fun x hx => h1 x (by simp [hx]))

theorem readNat_zeros_append (k : ℕ) (l : List Char) :
    readNat (List.replicate k '0' ++ l) = readNat l := by
  induction k with
  | zero => simp
  | succ m ih =>
    rw [List.replicate_succ, List.cons_append, readNat, List.foldl_cons]
    have : (10 * 0 + dval '0') = 0 := by decide
    rw [this]
    exact ih

theorem pad6_length (m : ℕ) (h : m < 1000000) : (pad6 m).length = 6 := by
  have hle : (natToChars m).length ≤ 6 :=
    natToChars_length_le m 6 (by omega) (by norm_num; omega)
  rw [pad6, List.length_append, List.length_replicate]
  omega

theorem pad6_all_isDig (m : ℕ) (c : Char) (hc : c ∈ pad6 m) : isDig c = true := by
  rw [pad6, List.mem_append] at hc
  rcases hc with h | h
  · rw [List.eq_of_mem_replicate h]; decide
  · exact mem_natToChars_isDig m c h

theorem readNat_pad6 (m : ℕ) : readNat (pad6 m) = m := by
  rw [pad6, readNat_zeros_append, readNat_natToChars]

theorem isDig_not_space (c : Char) (h : isDig c = true) : (c == ' ') = false := by
  simp only [beq_eq_false_iff_ne, ne_eq]
  intro hc
  rw [hc] at h
  exact absurd h (by decide)

theorem isDig_ne_char (c x : Char) (h : isDig c = true) (hx : isDig x = false) :
    c ≠ x := by
  intro hc
  rw [hc, hx] at h
  exact Bool.false_ne_true h

theorem dropWhile_space_of_digits (l : List Char)
    (h : ∀ c ∈ l, isDig c = true) (hne : l ≠ []) :
    l.dropWhile (fun c => c == ' ') = l := by
  cases l with
  | nil => rfl
  | cons c r =>
    rw [List.dropWhile_cons, isDig_not_space c (h c (by simp))]
    simp

theorem natPart_natToChars (n : ℕ) : natPart (natToChars n) = some n := by
  rw [natPart, takeWhile_all (natToChars n) (mem_natToChars_isDig n)]
  rw [if_neg (natToChars_ne_nil n), readNat_natToChars]

/-- Parsing the formatted integer recovers it exactly. -/
theorem stoi_intToString (z : ℤ) : stoi (intToString z) = some z := by
  rw [stoi, intToString, stoiL]
  show stoiCore (((if z < 0 then ['-'] else []) ++ natToChars z.natAbs).dropWhile _) = _
  by_cases hz : z < 0
  · rw [if_pos hz, List.singleton_append, List.dropWhile_cons]
    have hsp : (('-' : Char) == ' ') = false := by decide
    rw [hsp]
    simp only [Bool.false_eq_true, if_false]
    simp only [stoiCore, if_pos rfl, natPart_natToChars]
    show some (-(z.natAbs : ℤ)) = some z
    congr 1
    rw [Int.ofNat_natAbs_of_nonpos (le_of_lt hz)]
    ring
  · rw [if_neg hz, List.nil_append]
    rw [dropWhile_space_of_digits _ (mem_natToChars_isDig _) (natToChars_ne_nil _)]
    obtain ⟨c, r, hcr⟩ := List.exists_cons_of_ne_nil (natToChars_ne_nil z.natAbs)
    have hc : isDig c = true := by
      apply mem_natToChars_isDig z.natAbs
      rw [hcr]
      simp
    rw [hcr]
    simp only [stoiCore]
    rw [if_neg (isDig_ne_char c '-' hc (by decide))]
    rw [if_neg (isDig_ne_char c '+' hc (by decide))]
    rw [← hcr, natPart_natToChars]
    show some ((z.natAbs : ℤ)) = some z
    congr 1
    exact Int.natAbs_of_nonneg (not_lt.mp hz)

theorem fmt6_data (q : ℚ) :
    (fmt6 q).data =
      (if cvRound (q * 1000000) < 0 then ['-'] else []) ++
      natToChars ((cvRound (q * 1000000)).natAbs / 1000000) ++
      '.' :: pad6 ((cvRound (q * 1000000)).natAbs % 1000000) := rfl

theorem stodCore_digits_dot (a b : List Char)
    (ha : ∀ c ∈ a, isDig c = true) (hane : a ≠ [])
    (hb : ∀ c ∈ b, isDig c = true) (hb6 : b.length = 6) (sgn : ℚ) :
    stodCore sgn (a ++ '.' :: b) =
      some (sgn * ((readNat a : ℚ) + (readNat b : ℚ) / 1000000)) := by
  have h1 : (a ++ '.' :: b).takeWhile isDig = a :=
    takeWhile_append_stop a b '.' ha (by decide)
  have h2 : (a ++ '.' :: b).dropWhile isDig = '.' :: b :=
    dropWhile_append_stop a b '.' ha (by decide)
  simp only [stodCore, h1, h2, takeWhile_all b hb, dropWhile_all b hb, expVal]
  simp only [eq_self_iff_true, if_true]
  rw [if_neg (by simp [hane])]
  rw [hb6]
  norm_num

/-- Parsing the six-decimal formatted rational yields exactly the rounded
six-decimal value. -/
theorem stod_fmt6 (q : ℚ) :
    stod (fmt6 q) = some ((cvRound (q * 1000000) : ℚ) / 1000000) := by
  have hmod : (cvRound (q * 1000000)).natAbs % 1000000 < 1000000 := by omega
  set n : ℤ := cvRound (q * 1000000) with hn
  set a : List Char := natToChars (n.natAbs / 1000000) with hadef
  set b : List Char := pad6 (n.natAbs % 1000000) with hbdef
  have ha : ∀ c ∈ a, isDig c = true := by rw [hadef]; exact mem_natToChars_isDig _
  have hane : a ≠ [] := by rw [hadef]; exact natToChars_ne_nil _
  have hb : ∀ c ∈ b, isDig c = true := by rw [hbdef]; exact pad6_all_isDig _
  have hb6 : b.length = 6 := by rw [hbdef]; exact pad6_length _ hmod
  have hval : ((readNat a : ℚ) + (readNat b : ℚ) / 1000000) = (n.natAbs : ℚ) / 1000000 := by
    rw [hadef, hbdef, readNat_natToChars, readNat_pad6]
    have h1 : 1000000 * (n.natAbs / 1000000) + n.natAbs % 1000000 = n.natAbs :=
      Nat.div_add_mod _ _
    have h2 : 1000000 * ((n.natAbs / 1000000 : ℕ) : ℚ) + ((n.natAbs % 1000000 : ℕ) : ℚ) =
        (n.natAbs : ℚ) := by exact_mod_cast congrArg (fun x : ℕ => (x : ℚ)) h1
    field_simp
    linarith
  obtain ⟨c, r, hcr⟩ := List.exists_cons_of_ne_nil hane
  have hc : isDig c = true := ha c (by rw [hcr]; simp)
  have hdata : (fmt6 q).data = (if n < 0 then ['-'] else []) ++ a ++ '.' :: b := by
    rw [fmt6_data, ← hn, ← hadef, ← hbdef]
  simp only [stod, stodL, hdata]
  by_cases hneg : n < 0
  · rw [if_pos hneg]
    have hdrop : ((['-'] ++ a ++ '.' :: b).dropWhile (fun c => c == ' ')) =
        '-' :: (a ++ '.' :: b) := by
      rw [List.singleton_append, List.cons_append, List.dropWhile_cons]
      have hsp : (('-' : Char) == ' ') = false := by decide
      rw [hsp]
      simp
    have hsign : splitSignQ ('-' :: (a ++ '.' :: b)) = (-1, a ++ '.' :: b) := by
      rw [splitSignQ, if_pos rfl]
    rw [hdrop, hsign]
    rw [stodCore_digits_dot a b ha hane hb hb6 (-1), hval]
    have habs : ((n.natAbs : ℚ)) = -(n : ℚ) := by
      have h : (n.natAbs : ℤ) = -n := Int.ofNat_natAbs_of_nonpos (le_of_lt hneg)
      calc ((n.natAbs : ℚ)) = (((n.natAbs : ℤ) : ℚ)) := (Int.cast_natCast _).symm
      _ = ((-n : ℤ) : ℚ) := by rw [h]
      _ = -(n : ℚ) := by push_cast; ring
    rw [habs]
    congr 1
    ring
  · rw [if_neg hneg, List.nil_append]
    have hdrop : ((a ++ '.' :: b).dropWhile (fun c => c == ' ')) = a ++ '.' :: b := by
      rw [hcr, List.cons_append, List.dropWhile_cons, isDig_not_space c hc]
      simp
    have hsign : splitSignQ (a ++ '.' :: b) = (1, a ++ '.' :: b) := by
      rw [hcr, List.cons_append, splitSignQ]
      rw [if_neg (isDig_ne_char c '-' hc (by decide))]
      rw [if_neg (isDig_ne_char c '+' hc (by decide))]
    rw [hdrop, hsign]
    rw [stodCore_digits_dot a b ha hane hb hb6 1, hval]
    have habs : ((n.natAbs : ℚ)) = (n : ℚ) := by
      have h : (n.natAbs : ℤ) = n := Int.natAbs_of_nonneg (not_lt.mp hneg)
      calc ((n.natAbs : ℚ)) = (((n.natAbs : ℤ) : ℚ)) := (Int.cast_natCast _).symm
      _ = (n : ℚ) := by rw [h]
    rw [habs]
    congr 1
    ring

/-- Formatting depends only on the rounded six-decimal value. -/
theorem fmt6_congr (q₁ q₂ : ℚ)
    (h : cvRound (q₁ * 1000000) = cvRound (q₂ * 1000000)) : fmt6 q₁ = fmt6 q₂ := by
  rw [fmt6, fmt6, h]

/-- Re-formatting the parsed formatted value gives the same string:
the six-decimal representation is a fixed point of parse-then-format. -/
theorem fmt6_stable (q : ℚ) :
    fmt6 ((cvRound (q * 1000000) : ℚ) / 1000000) = fmt6 q := by
  apply fmt6_congr
  have : ((cvRound (q * 1000000) : ℚ) / 1000000) * 1000000 =
      ((cvRound (q * 1000000) : ℤ) : ℚ) := by
    field_simp
  rw [this, cvRound_intCast]

/-! ### The strategy classes

Each strategy is a state record (its C++ data members, including the
inherited `img_background` / frame-history members actually carried
between calls), a `default` state (the constructor), `process`
(returning the new state, the foreground output and the
background-model output), and the parameter operations.

`setParams` iterates a `std::map`, i.e. the key/value pairs in
ascending key order; `std::stoi` / `std::stod` throw on a value with no
parsable digits, which aborts the loop and propagates: `runParams`
returns the state mutated by the successfully processed prefix, plus an
error flag. `getParams` returns the map's pairs in ascending key
order. -/

/-- The `for (const auto& param : params)` loop of every `setParams`:
apply pairs left to right; a parse failure (`none` from `apply1`)
rethrows, keeping the mutations made so far. -/
def runParams {σ : Type} (apply1 : σ → String × String → Option σ) :
    σ → List (String × String) → σ × Bool
  | s, [] => (s, false)
  | s, kv :: rest =>
    match apply1 s kv with
    | some s' => runParams apply1 s' rest
    | none => (s, true)

namespace FrameDifference

/-- Data members of `FrameDifference` (plus the inherited background). -/
structure State where
  background : Option Img
  enableThreshold : Bool
  threshold : ℤ

/-- The `FrameDifference` constructor. -/
def default : State := { background := none, enableThreshold := true, threshold := 15 }

/-- `FrameDifference::process`. -/
def process (s : State) (input : Img) : State × Img × Img :=
  match s.background with
  | none =>
      ({ s with background := some input },
        zeros8 input.rows input.cols 1, zeros8 input.rows input.cols 3)
  | some bg =>
      let fg0 := absdiff8 bg input
      let fg1 := grayIf3 fg0
      let fg2 := if s.enableThreshold then thresholdBinary s.threshold fg1 else fg1
      ({ s with background := some input }, fg2, input)

/-- One iteration of `FrameDifference::setParams`. -/
def applyParam (s : State) (kv : String × String) : Option State :=
  if kv.1 = "enableThreshold" then some { s with enableThreshold := kv.2 == "true" }
  else if kv.1 = "threshold" then (stoi kv.2).map (fun z => { s with threshold := z })
  else some s

/-- `FrameDifference::setParams` over the map's pairs in key order. -/
def setParams (s : State) (l : List (String × String)) : State × Bool :=
  runParams applyParam s l

/-- `FrameDifference::getParams` (pairs in ascending key order). -/
def getParams (s : State) : List (String × String) :=
  [("enableThreshold", boolString s.enableThreshold),
   ("threshold", intToString s.threshold)]

end FrameDifference

namespace AdaptiveBackgroundLearning

/-- Data members of `AdaptiveBackgroundLearning`. The `minVal`/`maxVal`
members are initialized to `0.0`/`1.0` and never written anywhere, so
the conversions below use the resulting constants (scale 255, offset 0)
directly. -/
structure State where
  background : Option Img
  alpha : ℚ
  maxLearningFrames : ℤ
  currentLearningFrame : ℤ
  enableThreshold : Bool
  threshold : ℤ

/-- The `AdaptiveBackgroundLearning` constructor. -/
def default : State :=
  { background := none, alpha := 0.05, maxLearningFrames := -1,
    currentLearningFrame := 0, enableThreshold := true, threshold := 15 }

/-- The learning guard
`(maxLearningFrames > 0 && currentLearningFrame < maxLearningFrames) || maxLearningFrames == -1`. -/
def learnCond (s : State) : Bool :=
  (decide (0 < s.maxLearningFrames) && decide (s.currentLearningFrame < s.maxLearningFrames))
    || decide (s.maxLearningFrames = -1)

/-- The counter guard
`maxLearningFrames > 0 && currentLearningFrame < maxLearningFrames`. -/
def advCond (s : State) : Bool :=
  decide (0 < s.maxLearningFrames) && decide (s.currentLearningFrame < s.maxLearningFrames)

/-- `AdaptiveBackgroundLearning::process`. -/
def process (s : State) (input : Img) : State × Img × Img :=
  let bg0 := s.background.getD input
  let inputF := toF input
  let bgF := toF bg0
  let diffF := absdiffF inputF bgF
  let bg1 := if learnCond s then ofF (blendF s.alpha inputF bgF) else bg0
  let cnt := if advCond s then s.currentLearningFrame + 1 else s.currentLearningFrame
  let fg0 := ofF diffF
  let fg1 := grayIf3 fg0
  let fg2 := if s.enableThreshold then thresholdBinary s.threshold fg1 else fg1
  ({ s with background := some bg1, currentLearningFrame := cnt }, fg2, bg1)

/-- One iteration of `AdaptiveBackgroundLearning::setParams`. -/
def applyParam (s : State) (kv : String × String) : Option State :=
  if kv.1 = "alpha" then (stod kv.2).map (fun v => { s with alpha := v })
  else if kv.1 = "maxLearningFrames" then
    (stoi kv.2).map (fun z => { s with maxLearningFrames := z })
  else if kv.1 = "enableThreshold" then some { s with enableThreshold := kv.2 == "true" }
  else if kv.1 = "threshold" then (stoi kv.2).map (fun z => { s with threshold := z })
  else some s

/-- `AdaptiveBackgroundLearning::setParams` over the map's pairs in key
order. -/
def setParams (s : State) (l : List (String × String)) : State × Bool :=
  runParams applyParam s l

/-- `AdaptiveBackgroundLearning::getParams` (ascending key order). -/
def getParams (s : State) : List (String × String) :=
  [("alpha", fmt6 s.alpha),
   ("enableThreshold", boolString s.enableThreshold),
   ("maxLearningFrames", intToString s.maxLearningFrames),
   ("threshold", intToString s.threshold)]

end AdaptiveBackgroundLearning

namespace AdaptiveSelectiveBackgroundLearning

/-- Data members of `AdaptiveSelectiveBackgroundLearning`; as above
`minVal = 0.0` and `maxVal = 1.0` are constants. -/
structure State where
  background : Option Img
  alphaLearn : ℚ
  alphaDetection : ℚ
  learningFrames : ℤ
  counter : ℤ
  threshold : ℤ

/-- The `AdaptiveSelectiveBackgroundLearning` constructor. -/
def default : State :=
  { background := none, alphaLearn := 0.05, alphaDetection := 0.05,
    learningFrames := -1, counter := 0, threshold := 15 }

/-- The unconditional-phase guard
`learningFrames > 0 && counter <= learningFrames`. -/
def learnCond (s : State) : Bool :=
  decide (0 < s.learningFrames) && decide (s.counter ≤ s.learningFrames)

/-- The per-pixel selective update loop: pixels of the iteration domain
whose mask value is 0 blend toward the input; all others keep their
background value. -/
def selectiveBlend (rows cols : ℕ) (alpha : ℚ) (mask : Img) (inputF bgF : ImgF) : ImgF :=
  ⟨bgF.rows, bgF.cols, bgF.channels, fun i j k =>
    if i < rows ∧ j < cols ∧ mask.px i j 0 = 0
    then alpha * inputF.px i j k + (1 - alpha) * bgF.px i j k
    else bgF.px i j k⟩

/-- The foreground-mask pipeline of
`AdaptiveSelectiveBackgroundLearning::process`: grayscale input, absolute
difference against the (possibly just-seeded) background, conversion to
8 bits, binarization at `threshold`, 3×3 median filter. -/
def maskOf (s : State) (inputRaw : Img) : Img :=
  let input := grayIf3 inputRaw
  let bg0 := s.background.getD input
  medianBlur3 (thresholdBinary s.threshold (ofF (absdiffF (toF input) (toF bg0))))

/-- `AdaptiveSelectiveBackgroundLearning::process`. -/
def process (s : State) (inputRaw : Img) : State × Img × Img :=
  let input := grayIf3 inputRaw
  let bg0 := s.background.getD input
  let inputF := toF input
  let bgF := toF bg0
  let fg := maskOf s inputRaw
  let upd := if learnCond s then blendF s.alphaLearn inputF bgF
             else selectiveBlend input.rows input.cols s.alphaDetection fg inputF bgF
  let cnt := if learnCond s then s.counter + 1 else s.counter
  let bg1 := ofF upd
  ({ s with background := some bg1, counter := cnt }, fg, bg1)

/-- One iteration of `AdaptiveSelectiveBackgroundLearning::setParams`. -/
def applyParam (s : State) (kv : String × String) : Option State :=
  if kv.1 = "alphaLearn" then (stod kv.2).map (fun v => { s with alphaLearn := v })
  else if kv.1 = "alphaDetection" then (stod kv.2).map (fun v => { s with alphaDetection := v })
  else if kv.1 = "learningFrames" then (stoi kv.2).map (fun z => { s with learningFrames := z })
  else if kv.1 = "threshold" then (stoi kv.2).map (fun z => { s with threshold := z })
  else some s

/-- `AdaptiveSelectiveBackgroundLearning::setParams` over the map's
pairs in key order. -/
def setParams (s : State) (l : List (String × String)) : State × Bool :=
  runParams applyParam s l

/-- `AdaptiveSelectiveBackgroundLearning::getParams` (ascending key
order). -/
def getParams (s : State) : List (String × String) :=
  [("alphaDetection", fmt6 s.alphaDetection),
   ("alphaLearn", fmt6 s.alphaLearn),
   ("learningFrames", intToString s.learningFrames),
   ("threshold", intToString s.threshold)]

end AdaptiveSelectiveBackgroundLearning

namespace WeightedMovingMean

/-- Data members of `WeightedMovingMean`. -/
structure State where
  prev1 : Option Img
  prev2 : Option Img
  enableWeight : Bool
  enableThreshold : Bool
  threshold : ℤ

/-- The `WeightedMovingMean` constructor. -/
def default : State :=
  { prev1 := none, prev2 := none, enableWeight := true,
    enableThreshold := true, threshold := 15 }

/-- `(input_f * 0.5) + (prev1_f * 0.3) + (prev2_f * 0.2)`. -/
def wsum (a b c : ImgF) : ImgF :=
  ⟨a.rows, a.cols, a.channels, fun i j k =>
    a.px i j k * 0.5 + b.px i j k * 0.3 + c.px i j k * 0.2⟩

/-- `(input_f + prev1_f + prev2_f) / 3.0`. -/
def meanSum (a b c : ImgF) : ImgF :=
  ⟨a.rows, a.cols, a.channels, fun i j k =>
    (a.px i j k + b.px i j k + c.px i j k) / 3⟩

/-- `WeightedMovingMean::process`. -/
def process (s : State) (input : Img) : State × Img × Img :=
  match s.prev1, s.prev2 with
  | none, _ =>
      ({ s with prev1 := some input },
        zeros8 input.rows input.cols 1, zeros8 input.rows input.cols 3)
  | some p1, none =>
      ({ s with prev2 := some p1, prev1 := some input },
        zeros8 input.rows input.cols 1, zeros8 input.rows input.cols 3)
  | some p1, some p2 =>
      let bgF := if s.enableWeight then WeightedMovingMean.wsum (toF input) (toF p1) (toF p2)
                 else WeightedMovingMean.meanSum (toF input) (toF p1) (toF p2)
      let bg := ofF bgF
      let fg0 := absdiff8 input bg
      let fg1 := grayIf3 fg0
      let fg2 := if s.enableThreshold then thresholdBinary s.threshold fg1 else fg1
      ({ s with prev2 := some p1, prev1 := some input }, fg2, bg)

/-- One iteration of `WeightedMovingMean::setParams`. -/
def applyParam (s : State) (kv : String × String) : Option State :=
  if kv.1 = "enableWeight" then some { s with enableWeight := kv.2 == "true" }
  else if kv.1 = "enableThreshold" then some { s with enableThreshold := kv.2 == "true" }
  else if kv.1 = "threshold" then (stoi kv.2).map (fun z => { s with threshold := z })
  else some s

/-- `WeightedMovingMean::setParams` over the map's pairs in key order. -/
def setParams (s : State) (l : List (String × String)) : State × Bool :=
  runParams applyParam s l

/-- `WeightedMovingMean::getParams` (ascending key order). -/
def getParams (s : State) : List (String × String) :=
  [("enableThreshold", boolString s.enableThreshold),
   ("enableWeight", boolString s.enableWeight),
   ("threshold", intToString s.threshold)]

end WeightedMovingMean

/-! ### Common facts and concrete frames used in the claims -/

/-- A 1×1 single-channel frame of constant value `v`. -/
def img1x1 (v : ℕ) : Img := ⟨1, 1, 1, fun _ _ _ => v⟩

/-- A 1×1 three-channel frame of constant value `v`. -/
def img1x1c3 (v : ℕ) : Img := ⟨1, 1, 3, fun _ _ _ => v⟩

/-- All samples of an 8-bit image are zero. -/
def IsZero8 (a : Img) : Prop := ∀ i j k, a.px i j k = 0

/-- All samples of a float image are zero. -/
def IsZeroF (a : ImgF) : Prop := ∀ i j k, a.px i j k = 0

theorem isZeroF_absdiff_self (a : ImgF) : IsZeroF (absdiffF a a) := by
  intro i j k
  simp [absdiffF]

theorem isZero8_ofF (a : ImgF) (h : IsZeroF a) : IsZero8 (ofF a) := by
  intro i j k
  show quant (a.px i j k) = 0
  rw [h i j k, quant_zero]

theorem isZero8_gray (a : Img) (h : IsZero8 a) : IsZero8 (grayIf3 a) := by
  intro i j k
  by_cases hc : a.channels = 3
  · show (if a.channels = 3 then cvtColorBGR2GRAY a else a).px i j k = 0
    rw [if_pos hc]
    show (1868 * a.px i j 0 + 9617 * a.px i j 1 + 4899 * a.px i j 2 + 8192) / 16384 = 0
    rw [h i j 0, h i j 1, h i j 2]
  · show (if a.channels = 3 then cvtColorBGR2GRAY a else a).px i j k = 0
    rw [if_neg hc]
    exact h i j k

theorem isZero8_threshold (t : ℤ) (ht : 0 ≤ t) (a : Img) (h : IsZero8 a) :
    IsZero8 (thresholdBinary t a) := by
  intro i j k
  show (if t < ((a.px i j k : ℕ) : ℤ) then 255 else 0) = 0
  rw [h i j k]
  rw [if_neg (by omega)]

theorem isZero8_median (a : Img) (h : IsZero8 a) : IsZero8 (medianBlur3 a) := by
  intro i j k
  show med9 _ = 0
  have h' : ∀ x y z, a.px x y z = 0 := h
  simp only [h']
  exact med9_zero

theorem grayIf3_rows (a : Img) : (grayIf3 a).rows = a.rows := by
  by_cases h : a.channels = 3 <;> simp [grayIf3, cvtColorBGR2GRAY, h]

theorem grayIf3_cols (a : Img) : (grayIf3 a).cols = a.cols := by
  by_cases h : a.channels = 3 <;> simp [grayIf3, cvtColorBGR2GRAY, h]

theorem grayIf3_channels (a : Img) (h : a.channels = 1 ∨ a.channels = 3) :
    (grayIf3 a).channels = 1 := by
  rcases h with h | h <;> simp [grayIf3, cvtColorBGR2GRAY, h]

/-! ### Claim C4 -/

/-- C4: with default parameters, the first `process` call returns an
all-zero foreground mask for FrameDifference (early return over the
`init`-allocated zero mask), AdaptiveBackgroundLearning and
AdaptiveSelectiveBackgroundLearning (difference of the input against the
just-seeded background is zero, which thresholding and median filtering
keep at zero), and for WeightedMovingMean both the first and the second
call return the all-zero `init` mask.  Proved for every input frame, in
particular every non-empty one. -/
theorem claim_C4 :
    (∀ (input : Img) (i j k : ℕ),
      (FrameDifference.process FrameDifference.default input).2.1.px i j k = 0) ∧
    (∀ (input : Img) (i j k : ℕ),
      (AdaptiveBackgroundLearning.process AdaptiveBackgroundLearning.default input).2.1.px i j k = 0) ∧
    (∀ (input : Img) (i j k : ℕ),
      (AdaptiveSelectiveBackgroundLearning.process AdaptiveSelectiveBackgroundLearning.default input).2.1.px i j k = 0) ∧
    (∀ (input1 input2 : Img) (i j k : ℕ),
      (WeightedMovingMean.process WeightedMovingMean.default input1).2.1.px i j k = 0 ∧
      (WeightedMovingMean.process
        (WeightedMovingMean.process WeightedMovingMean.default input1).1 input2).2.1.px i j k = 0) := by
  refine ⟨fun input i j k => rfl, ?_, ?_, fun input1 input2 i j k => ⟨rfl, rfl⟩⟩
  · intro input i j k
    show (thresholdBinary 15 (grayIf3 (ofF (absdiffF (toF input) (toF input))))).px i j k = 0
    exact isZero8_threshold 15 (by norm_num) _
      (isZero8_gray _ (isZero8_ofF _ (isZeroF_absdiff_self _))) i j k
  · intro input i j k
    show (medianBlur3 (thresholdBinary 15
      (ofF (absdiffF (toF (grayIf3 input)) (toF (grayIf3 input)))))).px i j k = 0
    exact isZero8_median _ (isZero8_threshold 15 (by norm_num) _
      (isZero8_ofF _ (isZeroF_absdiff_self _))) i j k

/-! ### Claim C5 -/

/-- Modelled from the spec's words for the refinement check of C5: the
foreground is always derived from `diff = |input_f - background_f|`
taken against the background as it was at the start of the call (the
just-seeded input on the first call), converted back to 8 bits with
scale 255 and offset 0, grayscale-reduced if needed, optionally
thresholded — independent of the learning decision. -/
def ablForegroundSpec (s : AdaptiveBackgroundLearning.State) (input : Img) : Img :=
  let bg0 := s.background.getD input
  let diffF := absdiffF (toF input) (toF bg0)
  let fg1 := grayIf3 (ofF diffF)
  if s.enableThreshold then thresholdBinary s.threshold fg1 else fg1

/-- C5: on every AdaptiveBackgroundLearning `process` call the
foreground output equals the spec's pre-update-difference pipeline
(first conjunct), so it is identical whether or not the background
update branch runs: any two states agreeing on the stored background
and the thresholding parameters — but possibly differing in `alpha`,
`maxLearningFrames`, `currentLearningFrame` — produce the same
foreground (second conjunct). -/
theorem claim_C5 :
    (∀ (s : AdaptiveBackgroundLearning.State) (input : Img),
      (AdaptiveBackgroundLearning.process s input).2.1 = ablForegroundSpec s input) ∧
    (∀ (s₁ s₂ : AdaptiveBackgroundLearning.State) (input : Img),
      s₁.background = s₂.background → s₁.enableThreshold = s₂.enableThreshold →
      s₁.threshold = s₂.threshold →
      (AdaptiveBackgroundLearning.process s₁ input).2.1 =
        (AdaptiveBackgroundLearning.process s₂ input).2.1) := by
  constructor
  · intro s input
    rfl
  · intro s₁ s₂ input h1 h2 h3
    show ablForegroundSpec s₁ input = ablForegroundSpec s₂ input
    unfold ablForegroundSpec
    rw [h1, h2, h3]

/-- Witness for C5: two concrete states differing only in the learning
cap (0 versus unbounded) give the same foreground on a concrete frame. -/
theorem claim_C5_witness :
    (AdaptiveBackgroundLearning.process
      { AdaptiveBackgroundLearning.default with maxLearningFrames := 0 } (img1x1 7)).2.1 =
    (AdaptiveBackgroundLearning.process AdaptiveBackgroundLearning.default (img1x1 7)).2.1 :=
  claim_C5.2 _ _ (img1x1 7) rfl rfl rfl

/-! ### Claim C9 -/

/-- C9: FrameDifference threshold monotonicity.  With thresholding
enabled, a fixed stored previous frame `b` and a fixed input, every
pixel that is background (0) at threshold `t₁` is still background at
any `t₂ ≥ t₁`; raising the threshold can only turn foreground pixels to
background, never the reverse. -/
theorem claim_C9 (b input : Img) (t₁ t₂ : ℤ) (h : t₁ ≤ t₂) (i j k : ℕ)
    (hz : (FrameDifference.process ⟨some b, true, t₁⟩ input).2.1.px i j k = 0) :
    (FrameDifference.process ⟨some b, true, t₂⟩ input).2.1.px i j k = 0 := by
  have e₁ : (FrameDifference.process ⟨some b, true, t₁⟩ input).2.1.px i j k =
      (if t₁ < ((grayIf3 (absdiff8 b input)).px i j k : ℤ) then 255 else 0) := rfl
  have e₂ : (FrameDifference.process ⟨some b, true, t₂⟩ input).2.1.px i j k =
      (if t₂ < ((grayIf3 (absdiff8 b input)).px i j k : ℤ) then 255 else 0) := rfl
  rw [e₁] at hz
  rw [e₂]
  by_cases h₁ : t₁ < ((grayIf3 (absdiff8 b input)).px i j k : ℤ)
  · rw [if_pos h₁] at hz
    omega
  · rw [if_neg (by omega)]

/-- Witness for C9: a concrete equal pair of frames is background at
threshold 10 and stays background at threshold 20. -/
theorem claim_C9_witness :
    (FrameDifference.process ⟨some (img1x1 10), true, 20⟩ (img1x1 10)).2.1.px 0 0 0 = 0 :=
  claim_C9 (img1x1 10) (img1x1 10) 10 20 (by decide) 0 0 0 (by decide)

/-! ### Claim C3 -/

theorem med9_const (v : ℕ) : med9 [v, v, v, v, v, v, v, v, v] = v := by
  simp [med9, isort, insertLe]

theorem medianBlur3_1x1 (a : Img) (h1 : a.rows = 1) (h2 : a.cols = 1) (k : ℕ) :
    (medianBlur3 a).px 0 0 k = a.px 0 0 k := by
  simp only [medianBlur3]
  rw [h1, h2]
  norm_num [clampIdx]
  exact med9_const _

/-- C3: AdaptiveSelectiveBackgroundLearning in the selective phase (the
unconditional-phase guard `learningFrames > 0 && counter <= learningFrames`
is false).  First conjunct: the background output of the call is exactly
the stored background model after the call.  Second conjunct: every pixel
whose value in the current (post-median-filter) foreground mask is
nonzero keeps its previous stored background value.  Third conjunct:
pixels with mask value 0 (inside the frame) are blended toward the
(grayscale) input at rate `alphaDetection` and re-quantized. -/
theorem claim_C3 (s : AdaptiveSelectiveBackgroundLearning.State) (b input : Img) (i j : ℕ)
    (hbg : s.background = some b)
    (hphase : AdaptiveSelectiveBackgroundLearning.learnCond s = false)
    (hb : b.px i j 0 ≤ 255) :
    ((AdaptiveSelectiveBackgroundLearning.process s input).1.background =
      some (AdaptiveSelectiveBackgroundLearning.process s input).2.2) ∧
    ((AdaptiveSelectiveBackgroundLearning.process s input).2.1.px i j 0 ≠ 0 →
      (AdaptiveSelectiveBackgroundLearning.process s input).2.2.px i j 0 = b.px i j 0) ∧
    (i < input.rows → j < input.cols →
      (AdaptiveSelectiveBackgroundLearning.process s input).2.1.px i j 0 = 0 →
      (AdaptiveSelectiveBackgroundLearning.process s input).2.2.px i j 0 =
        quant (s.alphaDetection * (toF (grayIf3 input)).px i j 0 +
          (1 - s.alphaDetection) * (toF b).px i j 0)) := by
  have key : (AdaptiveSelectiveBackgroundLearning.process s input).2.2 =
      ofF (AdaptiveSelectiveBackgroundLearning.selectiveBlend
        (grayIf3 input).rows (grayIf3 input).cols s.alphaDetection
        (AdaptiveSelectiveBackgroundLearning.maskOf s input)
        (toF (grayIf3 input)) (toF b)) := by
    show ofF (if AdaptiveSelectiveBackgroundLearning.learnCond s then
        blendF s.alphaLearn (toF (grayIf3 input)) (toF (s.background.getD (grayIf3 input)))
      else AdaptiveSelectiveBackgroundLearning.selectiveBlend
        (grayIf3 input).rows (grayIf3 input).cols s.alphaDetection
        (AdaptiveSelectiveBackgroundLearning.maskOf s input)
        (toF (grayIf3 input)) (toF (s.background.getD (grayIf3 input)))) = _
    rw [hphase, hbg]
    simp
  refine ⟨rfl, ?_, ?_⟩
  · intro hmask
    rw [key]
    show quant (if i < (grayIf3 input).rows ∧ j < (grayIf3 input).cols ∧
        (AdaptiveSelectiveBackgroundLearning.maskOf s input).px i j 0 = 0
      then s.alphaDetection * (toF (grayIf3 input)).px i j 0 +
        (1 - s.alphaDetection) * (toF b).px i j 0
      else (toF b).px i j 0) = b.px i j 0
    rw [if_neg (fun hc => hmask hc.2.2)]
    exact quant_byte _ hb
  · intro hi hj hmask
    rw [key]
    show quant (if i < (grayIf3 input).rows ∧ j < (grayIf3 input).cols ∧
        (AdaptiveSelectiveBackgroundLearning.maskOf s input).px i j 0 = 0
      then s.alphaDetection * (toF (grayIf3 input)).px i j 0 +
        (1 - s.alphaDetection) * (toF b).px i j 0
      else (toF b).px i j 0) = _
    rw [if_pos ⟨by rw [grayIf3_rows]; exact hi, by rw [grayIf3_cols]; exact hj, hmask⟩]

/-- The concrete selective-phase state of the C3 witness: default
parameters (so `learningFrames = -1` puts the instance in the selective
phase immediately) with an all-black stored background. -/
def c3state : AdaptiveSelectiveBackgroundLearning.State :=
  { AdaptiveSelectiveBackgroundLearning.default with background := some (img1x1 0) }

theorem c3_mask_eval :
    (AdaptiveSelectiveBackgroundLearning.maskOf c3state (img1x1 255)).px 0 0 0 = 255 := by
  have hq : quant |(((255 : ℕ) : ℚ))/255 - (((0 : ℕ) : ℚ))/255| = 255 := by
    have h1 : |(((255 : ℕ) : ℚ))/255 - (((0 : ℕ) : ℚ))/255| = ((255 : ℕ) : ℚ)/255 := by
      push_cast
      norm_num
    rw [h1]
    exact quant_byte 255 (by norm_num)
  have hentry : (thresholdBinary 15
      (ofF (absdiffF (toF (grayIf3 (img1x1 255))) (toF (img1x1 0))))).px 0 0 0 = 255 := by
    show (if (15 : ℤ) < ((quant |(((255 : ℕ) : ℚ))/255 - (((0 : ℕ) : ℚ))/255| : ℕ) : ℤ)
      then 255 else 0) = 255
    rw [hq]
    norm_num
  have e : AdaptiveSelectiveBackgroundLearning.maskOf c3state (img1x1 255) =
      medianBlur3 (thresholdBinary 15
        (ofF (absdiffF (toF (grayIf3 (img1x1 255))) (toF (img1x1 0))))) := rfl
  rw [e, medianBlur3_1x1 _ rfl rfl, hentry]

/-- Witness for C3: in the selective phase with an all-black background
and an all-white input, the (post-median) mask is 255 at the origin and
the stored background pixel there is unchanged by the call. -/
theorem claim_C3_witness :
    (AdaptiveSelectiveBackgroundLearning.process c3state (img1x1 255)).2.2.px 0 0 0 =
      (img1x1 0).px 0 0 0 :=
  (claim_C3 c3state (img1x1 0) (img1x1 255) 0 0 rfl rfl (by decide)).2.1
    (by
      show (AdaptiveSelectiveBackgroundLearning.maskOf c3state (img1x1 255)).px 0 0 0 ≠ 0
      rw [c3_mask_eval]
      norm_num)

/-! ### Claim C10 -/

/-- C10: both adaptive strategies carry only an 8-bit background image
between calls: the float model is re-derived by scaling the stored bytes
by 1/255 and the blended result is re-quantized to 8 bits before being
stored.  Consequently a blend update that moves a pixel's normalized
value by less than half a quantization step (1/510) leaves that pixel's
stored background byte unchanged.  First conjunct:
AdaptiveBackgroundLearning in the learning branch (the background output
is the stored model, `some`-wrapped in the new state).  Second conjunct:
AdaptiveSelectiveBackgroundLearning in the selective phase at a
mask-background pixel. -/
theorem claim_C10 :
    (∀ (s : AdaptiveBackgroundLearning.State) (b input : Img) (i j k : ℕ),
      s.background = some b →
      AdaptiveBackgroundLearning.learnCond s = true →
      b.px i j k ≤ 255 →
      |s.alpha * (toF input).px i j k + (1 - s.alpha) * (toF b).px i j k -
        (b.px i j k : ℚ)/255| < 1/510 →
      (AdaptiveBackgroundLearning.process s input).2.2.px i j k = b.px i j k ∧
      (AdaptiveBackgroundLearning.process s input).1.background =
        some (AdaptiveBackgroundLearning.process s input).2.2) ∧
    (∀ (s : AdaptiveSelectiveBackgroundLearning.State) (b input : Img) (i j : ℕ),
      s.background = some b →
      AdaptiveSelectiveBackgroundLearning.learnCond s = false →
      i < input.rows → j < input.cols →
      (AdaptiveSelectiveBackgroundLearning.maskOf s input).px i j 0 = 0 →
      b.px i j 0 ≤ 255 →
      |s.alphaDetection * (toF (grayIf3 input)).px i j 0 +
        (1 - s.alphaDetection) * (toF b).px i j 0 - (b.px i j 0 : ℚ)/255| < 1/510 →
      (AdaptiveSelectiveBackgroundLearning.process s input).2.2.px i j 0 = b.px i j 0) := by
  constructor
  · intro s b input i j k hbg hlearn hb hnear
    have key : (AdaptiveBackgroundLearning.process s input).2.2 =
        ofF (blendF s.alpha (toF input) (toF b)) := by
      show (if AdaptiveBackgroundLearning.learnCond s then
          ofF (blendF s.alpha (toF input) (toF (s.background.getD input)))
        else s.background.getD input) = _
      rw [hlearn, hbg]
      simp
    refine ⟨?_, rfl⟩
    rw [key]
    show quant (s.alpha * (toF input).px i j k + (1 - s.alpha) * (toF b).px i j k) =
      b.px i j k
    exact quant_near _ _ hb hnear
  · intro s b input i j hbg hphase hi hj hmask hb hnear
    have key : (AdaptiveSelectiveBackgroundLearning.process s input).2.2 =
        ofF (AdaptiveSelectiveBackgroundLearning.selectiveBlend
          (grayIf3 input).rows (grayIf3 input).cols s.alphaDetection
          (AdaptiveSelectiveBackgroundLearning.maskOf s input)
          (toF (grayIf3 input)) (toF b)) := by
      show ofF (if AdaptiveSelectiveBackgroundLearning.learnCond s then
          blendF s.alphaLearn (toF (grayIf3 input)) (toF (s.background.getD (grayIf3 input)))
        else AdaptiveSelectiveBackgroundLearning.selectiveBlend
          (grayIf3 input).rows (grayIf3 input).cols s.alphaDetection
          (AdaptiveSelectiveBackgroundLearning.maskOf s input)
          (toF (grayIf3 input)) (toF (s.background.getD (grayIf3 input)))) = _
      rw [hphase, hbg]
      simp
    rw [key]
    show quant (if i < (grayIf3 input).rows ∧ j < (grayIf3 input).cols ∧
        (AdaptiveSelectiveBackgroundLearning.maskOf s input).px i j 0 = 0
      then s.alphaDetection * (toF (grayIf3 input)).px i j 0 +
        (1 - s.alphaDetection) * (toF b).px i j 0
      else (toF b).px i j 0) = b.px i j 0
    rw [if_pos ⟨by rw [grayIf3_rows]; exact hi, by rw [grayIf3_cols]; exact hj, hmask⟩]
    exact quant_near _ _ hb hnear

/-- The concrete learning-branch state of the C10 witness. -/
def c10state : AdaptiveBackgroundLearning.State :=
  { AdaptiveBackgroundLearning.default with background := some (img1x1 100) }

/-- Witness for C10: blending a static pixel (input equals background)
moves the normalized value by 0 < 1/510, so the stored byte 100 is
unchanged. -/
theorem claim_C10_witness :
    (AdaptiveBackgroundLearning.process c10state (img1x1 100)).2.2.px 0 0 0 =
      (img1x1 100).px 0 0 0 :=
  (claim_C10.1 c10state (img1x1 100) (img1x1 100) 0 0 0 rfl rfl (by decide)
    (by
      show |(0.05 : ℚ) * (((100 : ℕ) : ℚ)/255) + (1 - (0.05 : ℚ)) * (((100 : ℕ) : ℚ)/255) -
        ((100 : ℕ) : ℚ)/255| < 1/510
      push_cast
      ring_nf
      norm_num)).1

/-! ### Claim C7 -/

/-- Modelled from the spec's words for the refinement check of C7: the
3-tap combination of `(input, previous-1, previous-2)` — weighted
`0.5/0.3/0.2` when `enableWeight`, else an unweighted mean (`1/3`
each) — in the normalized float domain. -/
def wmmCombineSpec (w : Bool) (cur prev1 prev2 : ImgF) : ImgF :=
  ⟨cur.rows, cur.cols, cur.channels, fun i j k =>
    if w then 0.5 * cur.px i j k + 0.3 * prev1.px i j k + 0.2 * prev2.px i j k
    else (cur.px i j k + prev1.px i j k + prev2.px i j k) / 3⟩

/-- C7: WeightedMovingMean from the third call onward (both history
frames present).  The background output is the quantization of the
spec's 3-tap combination (weighted 0.5/0.3/0.2 of input, previous-1,
previous-2 when `enableWeight`, unweighted mean otherwise); the
foreground is `|input - background|`, grayscale-reduced, thresholded
when `enableThreshold`; and the history shifts: previous-1 becomes
previous-2 and the input becomes previous-1. -/
theorem claim_C7 (s : WeightedMovingMean.State) (p1 p2 input : Img)
    (h1 : s.prev1 = some p1) (h2 : s.prev2 = some p2) :
    (∀ i j k, (WeightedMovingMean.process s input).2.2.px i j k =
      quant ((wmmCombineSpec s.enableWeight (toF input) (toF p1) (toF p2)).px i j k)) ∧
    ((WeightedMovingMean.process s input).2.1 =
      (if s.enableThreshold then
        thresholdBinary s.threshold
          (grayIf3 (absdiff8 input (WeightedMovingMean.process s input).2.2))
      else grayIf3 (absdiff8 input (WeightedMovingMean.process s input).2.2))) ∧
    (WeightedMovingMean.process s input).1.prev1 = some input ∧
    (WeightedMovingMean.process s input).1.prev2 = some p1 := by
  obtain ⟨pp1, pp2, w, e, t⟩ := s
  have h1' : pp1 = some p1 := h1
  have h2' : pp2 = some p2 := h2
  subst h1'
  subst h2'
  refine ⟨?_, rfl, rfl, rfl⟩
  intro i j k
  cases w
  · rfl
  · show quant ((toF input).px i j k * 0.5 + (toF p1).px i j k * 0.3 +
      (toF p2).px i j k * 0.2) =
      quant (0.5 * (toF input).px i j k + 0.3 * (toF p1).px i j k +
        0.2 * (toF p2).px i j k)
    congr 1
    ring

/-- Witness for C7: with a concrete warmed-up state the history shifts
as claimed. -/
theorem claim_C7_witness :
    (WeightedMovingMean.process
      ⟨some (img1x1 10), some (img1x1 20), true, true, 15⟩ (img1x1 30)).1.prev1 =
      some (img1x1 30) ∧
    (WeightedMovingMean.process
      ⟨some (img1x1 10), some (img1x1 20), true, true, 15⟩ (img1x1 30)).1.prev2 =
      some (img1x1 10) :=
  ⟨(claim_C7 ⟨some (img1x1 10), some (img1x1 20), true, true, 15⟩
      (img1x1 10) (img1x1 20) (img1x1 30) rfl rfl).2.2.1,
   (claim_C7 ⟨some (img1x1 10), some (img1x1 20), true, true, 15⟩
      (img1x1 10) (img1x1 20) (img1x1 30) rfl rfl).2.2.2⟩

/-! ### Claim C1 -/

/-- C1 (amended): the foreground output always has exactly one 8-bit
channel, but the background output is 3-channel only on the early-return
warm-up calls, where the `init`-allocated buffer survives.  On every
other call the final `copyTo` reallocates the output to the internal
model's format: the input's channel count for FrameDifference,
AdaptiveBackgroundLearning and WeightedMovingMean, and a single channel
for AdaptiveSelectiveBackgroundLearning. -/
theorem claim_C1 :
    (∀ (e : Bool) (t : ℤ) (input : Img),
      (FrameDifference.process ⟨none, e, t⟩ input).2.1.channels = 1 ∧
      (FrameDifference.process ⟨none, e, t⟩ input).2.2.channels = 3) ∧
    (∀ (s : FrameDifference.State) (b input : Img),
      s.background = some b → b.channels = input.channels →
      (input.channels = 1 ∨ input.channels = 3) →
      (FrameDifference.process s input).2.1.channels = 1 ∧
      (FrameDifference.process s input).2.2.channels = input.channels) ∧
    (∀ (s : AdaptiveBackgroundLearning.State) (input : Img),
      (∀ b, s.background = some b → b.channels = input.channels) →
      (input.channels = 1 ∨ input.channels = 3) →
      (AdaptiveBackgroundLearning.process s input).2.1.channels = 1 ∧
      (AdaptiveBackgroundLearning.process s input).2.2.channels = input.channels) ∧
    (∀ (s : AdaptiveSelectiveBackgroundLearning.State) (input : Img),
      (∀ b, s.background = some b → b.channels = 1) →
      (input.channels = 1 ∨ input.channels = 3) →
      (AdaptiveSelectiveBackgroundLearning.process s input).2.1.channels = 1 ∧
      (AdaptiveSelectiveBackgroundLearning.process s input).2.2.channels = 1) ∧
    (∀ (s : WeightedMovingMean.State) (input : Img), s.prev1 = none →
      (WeightedMovingMean.process s input).2.1.channels = 1 ∧
      (WeightedMovingMean.process s input).2.2.channels = 3) ∧
    (∀ (s : WeightedMovingMean.State) (p1 input : Img),
      s.prev1 = some p1 → s.prev2 = none →
      (WeightedMovingMean.process s input).2.1.channels = 1 ∧
      (WeightedMovingMean.process s input).2.2.channels = 3) ∧
    (∀ (s : WeightedMovingMean.State) (p1 p2 input : Img),
      s.prev1 = some p1 → s.prev2 = some p2 →
      (input.channels = 1 ∨ input.channels = 3) →
      (WeightedMovingMean.process s input).2.1.channels = 1 ∧
      (WeightedMovingMean.process s input).2.2.channels = input.channels) := by
  refine ⟨fun e t input => ⟨rfl, rfl⟩, ?_, ?_, ?_, ?_, ?_, ?_⟩
  · intro s b input hbg hch hin
    obtain ⟨bg0, e, t⟩ := s
    have hbg' : bg0 = some b := hbg
    subst hbg'
    have hg : (grayIf3 (absdiff8 b input)).channels = 1 := by
      apply grayIf3_channels
      show (b.channels = 1 ∨ b.channels = 3)
      rw [hch]
      exact hin
    refine ⟨?_, rfl⟩
    cases e
    · exact hg
    · exact hg
  · intro s input hsome hin
    constructor
    · have hg : (grayIf3 (ofF (absdiffF (toF input)
          (toF (s.background.getD input))))).channels = 1 := by
        apply grayIf3_channels
        exact hin
      show (if s.enableThreshold = true then
        thresholdBinary s.threshold (grayIf3 (ofF (absdiffF (toF input)
          (toF (s.background.getD input)))))
        else grayIf3 (ofF (absdiffF (toF input)
          (toF (s.background.getD input))))).channels = 1
      cases s.enableThreshold
      · exact hg
      · exact hg
    · show (if AdaptiveBackgroundLearning.learnCond s then
        ofF (blendF s.alpha (toF input) (toF (s.background.getD input)))
        else s.background.getD input).channels = input.channels
      cases hl : AdaptiveBackgroundLearning.learnCond s
      · simp only [Bool.false_eq_true, if_false]
        cases hbgv : s.background
        · rfl
        · show (Option.getD (some _) input).channels = input.channels
          rw [Option.getD_some]
          exact hsome _ hbgv
      · rfl
  · intro s input hsome hin
    have hgray : (grayIf3 input).channels = 1 := grayIf3_channels input hin
    constructor
    · exact hgray
    · show (if AdaptiveSelectiveBackgroundLearning.learnCond s then
        blendF s.alphaLearn (toF (grayIf3 input)) (toF (s.background.getD (grayIf3 input)))
        else AdaptiveSelectiveBackgroundLearning.selectiveBlend
          (grayIf3 input).rows (grayIf3 input).cols s.alphaDetection
          (AdaptiveSelectiveBackgroundLearning.maskOf s input)
          (toF (grayIf3 input)) (toF (s.background.getD (grayIf3 input)))).channels = 1
      cases hl : AdaptiveSelectiveBackgroundLearning.learnCond s
      · simp only [Bool.false_eq_true, if_false]
        show (s.background.getD (grayIf3 input)).channels = 1
        cases hbgv : s.background
        · exact hgray
        · rw [Option.getD_some]
          exact hsome _ hbgv
      · exact hgray
  · intro s input hp
    obtain ⟨pp1, pp2, w, e, t⟩ := s
    have hp' : pp1 = none := hp
    subst hp'
    exact ⟨rfl, rfl⟩
  · intro s p1 input hp1 hp2
    obtain ⟨pp1, pp2, w, e, t⟩ := s
    have hp1' : pp1 = some p1 := hp1
    have hp2' : pp2 = none := hp2
    subst hp1'
    subst hp2'
    exact ⟨rfl, rfl⟩
  · intro s p1 p2 input hp1 hp2 hin
    obtain ⟨pp1, pp2, w, e, t⟩ := s
    have hp1' : pp1 = some p1 := hp1
    have hp2' : pp2 = some p2 := hp2
    subst hp1'
    subst hp2'
    have hbgch : (if w = true then WeightedMovingMean.wsum (toF input) (toF p1) (toF p2)
        else WeightedMovingMean.meanSum (toF input) (toF p1) (toF p2)).channels = input.channels := by
      cases w
      · rfl
      · rfl
    constructor
    · have hg : (grayIf3 (absdiff8 input (ofF (if w = true
          then WeightedMovingMean.wsum (toF input) (toF p1) (toF p2)
          else WeightedMovingMean.meanSum (toF input) (toF p1) (toF p2))))).channels = 1 :=
        grayIf3_channels _ hin
      cases e
      · exact hg
      · exact hg
    · exact hbgch

/-- Counterexample for C1 as stated: AdaptiveSelectiveBackgroundLearning
on a 3-channel input returns a single-channel background-model image on
its very first call (the final `copyTo` reallocates the 3-channel buffer
allocated by `init`), not a 3-channel one. -/
theorem claim_C1_counterexample :
    (AdaptiveSelectiveBackgroundLearning.process AdaptiveSelectiveBackgroundLearning.default
      (img1x1c3 7)).2.2.channels ≠ 3 := by
  decide

/-- Witness for C1: a steady-state FrameDifference call on a 1-channel
frame yields a 1-channel foreground and a 1-channel (not 3-channel)
background output. -/
theorem claim_C1_witness :
    (FrameDifference.process ⟨some (img1x1 7), true, 15⟩ (img1x1 7)).2.1.channels = 1 ∧
    (FrameDifference.process ⟨some (img1x1 7), true, 15⟩ (img1x1 7)).2.2.channels = 1 :=
  claim_C1.2.1 ⟨some (img1x1 7), true, 15⟩ (img1x1 7) (img1x1 7) rfl rfl (Or.inl rfl)

/-! ### Claim C6 -/

namespace AdaptiveBackgroundLearning

theorem applyParam_fields (s : State) (kv : String × String) (s' : State)
    (h : applyParam s kv = some s') :
    s'.currentLearningFrame = s.currentLearningFrame ∧ s'.background = s.background := by
  simp only [applyParam] at h
  split_ifs at h
  · rcases Option.map_eq_some'.mp h with ⟨v, hv, hs⟩
    rw [← hs]
    exact ⟨rfl, rfl⟩
  · rcases Option.map_eq_some'.mp h with ⟨v, hv, hs⟩
    rw [← hs]
    exact ⟨rfl, rfl⟩
  · cases h
    exact ⟨rfl, rfl⟩
  · rcases Option.map_eq_some'.mp h with ⟨v, hv, hs⟩
    rw [← hs]
    exact ⟨rfl, rfl⟩
  · cases h
    exact ⟨rfl, rfl⟩

theorem setParams_cur_bg (l : List (String × String)) :
    ∀ s : State, (setParams s l).1.currentLearningFrame = s.currentLearningFrame ∧
      (setParams s l).1.background = s.background := by
  induction l with
  | nil => exact fun s => ⟨rfl, rfl⟩
  | cons kv rest ih =>
    intro s
    show (runParams applyParam s (kv :: rest)).1.currentLearningFrame = _ ∧
      (runParams applyParam s (kv :: rest)).1.background = _
    rw [runParams]
    cases happ : applyParam s kv with
    | none => exact ⟨rfl, rfl⟩
    | some s' =>
      have hf := applyParam_fields s kv s' happ
      have hr := ih s'
      exact ⟨hr.1.trans hf.1, hr.2.trans hf.2⟩

theorem process_maxLF (s : State) (input : Img) :
    (process s input).1.maxLearningFrames = s.maxLearningFrames := rfl

theorem process_cur (s : State) (input : Img) :
    (process s input).1.currentLearningFrame =
      if advCond s then s.currentLearningFrame + 1 else s.currentLearningFrame := rfl

/-- States reachable from a fresh AdaptiveBackgroundLearning instance by
arbitrary `process` and `setParams` calls. -/
inductive Reachable : State → Prop
  | init : Reachable default
  | step (s : State) (input : Img) : Reachable s → Reachable (process s input).1
  | set (s : State) (l : List (String × String)) : Reachable s → Reachable (setParams s l).1

/-- States reachable when no `setParams` call lowers a positive learning
cap below the counter already reached (the amended reachability of C6). -/
inductive ReachableTame : State → Prop
  | init : ReachableTame default
  | step (s : State) (input : Img) : ReachableTame s → ReachableTame (process s input).1
  | set (s : State) (l : List (String × String))
      (h : 0 < (setParams s l).1.maxLearningFrames →
        s.currentLearningFrame ≤ (setParams s l).1.maxLearningFrames) :
      ReachableTame s → ReachableTame (setParams s l).1

theorem reachable_cur_nonneg (s : State) (h : Reachable s) :
    0 ≤ s.currentLearningFrame := by
  induction h with
  | init => decide
  | step s input hs ih =>
    rw [process_cur]
    split_ifs <;> omega
  | set s l hs ih =>
    rw [(setParams_cur_bg l s).1]
    exact ih

theorem reachableTame_invariant (s : State) (h : ReachableTame s) :
    0 ≤ s.currentLearningFrame ∧
      (0 < s.maxLearningFrames → s.currentLearningFrame ≤ s.maxLearningFrames) := by
  induction h with
  | init => exact ⟨by decide, fun hc => absurd hc (by decide)⟩
  | step s input hs ih =>
    rw [process_cur, process_maxLF]
    cases hadv : advCond s
    · simpa using ih
    · have hc : 0 < s.maxLearningFrames ∧ s.currentLearningFrame < s.maxLearningFrames := by
        have := hadv
        simp only [advCond, Bool.and_eq_true, decide_eq_true_eq] at this
        exact this
      simp only [if_true]
      constructor
      · omega
      · intro
        omega
  | set s l hcond hs ih =>
    rw [(setParams_cur_bg l s).1]
    exact ⟨ih.1, hcond⟩

end AdaptiveBackgroundLearning

/-- C6 (amended): for AdaptiveBackgroundLearning, (a) in every state
reachable from a fresh instance, the background blend update runs
exactly when `maxLearningFrames = -1` or the counter has not yet reached
`maxLearningFrames`; (b) the new stored background is the blend exactly
when the learning guard holds, otherwise unchanged; (c) the counter
advances exactly under `0 < maxLearningFrames ∧ counter <
maxLearningFrames` (in particular it never advances when learning is
unbounded); and (d) the saturation invariant `counter ≤
maxLearningFrames` (for a positive cap) holds for every state reachable
without a `setParams` call that lowers the cap below the counter already
reached — the unrestricted invariant is refuted by the counterexample. -/
theorem claim_C6 :
    (∀ s : AdaptiveBackgroundLearning.State, AdaptiveBackgroundLearning.Reachable s →
      (AdaptiveBackgroundLearning.learnCond s = true ↔
        (s.maxLearningFrames = -1 ∨ s.currentLearningFrame < s.maxLearningFrames))) ∧
    (∀ (s : AdaptiveBackgroundLearning.State) (input : Img),
      (AdaptiveBackgroundLearning.process s input).1.background =
        some (if AdaptiveBackgroundLearning.learnCond s then
          ofF (blendF s.alpha (toF input) (toF (s.background.getD input)))
        else s.background.getD input)) ∧
    (∀ (s : AdaptiveBackgroundLearning.State) (input : Img),
      (AdaptiveBackgroundLearning.process s input).1.currentLearningFrame =
        (if AdaptiveBackgroundLearning.advCond s then s.currentLearningFrame + 1
         else s.currentLearningFrame) ∧
      (AdaptiveBackgroundLearning.advCond s = true ↔
        (0 < s.maxLearningFrames ∧ s.currentLearningFrame < s.maxLearningFrames))) ∧
    (∀ s : AdaptiveBackgroundLearning.State, AdaptiveBackgroundLearning.ReachableTame s →
      0 < s.maxLearningFrames → s.currentLearningFrame ≤ s.maxLearningFrames) := by
  refine ⟨?_, fun s input => rfl, ?_, ?_⟩
  · intro s hre
    have hnn := AdaptiveBackgroundLearning.reachable_cur_nonneg s hre
    simp only [AdaptiveBackgroundLearning.learnCond, Bool.or_eq_true, Bool.and_eq_true,
      decide_eq_true_eq]
    omega
  · intro s input
    refine ⟨rfl, ?_⟩
    simp only [AdaptiveBackgroundLearning.advCond, Bool.and_eq_true, decide_eq_true_eq]
  · intro s hre
    exact (AdaptiveBackgroundLearning.reachableTame_invariant s hre).2

/-- The state after requesting a learning cap of 2 on a fresh instance. -/
def c6s1 : AdaptiveBackgroundLearning.State :=
  (AdaptiveBackgroundLearning.setParams AdaptiveBackgroundLearning.default
    [("maxLearningFrames", "2")]).1

/-- The state after two further `process` calls (counter = 2 = cap). -/
def c6s2 : AdaptiveBackgroundLearning.State :=
  (AdaptiveBackgroundLearning.process
    (AdaptiveBackgroundLearning.process c6s1 (img1x1 5)).1 (img1x1 5)).1

/-- The state after lowering the cap to 1. -/
def c6s3 : AdaptiveBackgroundLearning.State :=
  (AdaptiveBackgroundLearning.setParams c6s2 [("maxLearningFrames", "1")]).1

/-- Counterexample for C6 as stated: a reachable state (cap 2, two
learning frames, then the cap lowered to 1 by `setParams`) has a
positive `maxLearningFrames` strictly below `currentLearningFrame`, so
the counter exceeds the cap. -/
theorem claim_C6_counterexample :
    AdaptiveBackgroundLearning.Reachable c6s3 ∧
      0 < c6s3.maxLearningFrames ∧
      c6s3.maxLearningFrames < c6s3.currentLearningFrame := by
  have h1 : AdaptiveBackgroundLearning.Reachable c6s1 :=
    AdaptiveBackgroundLearning.Reachable.set _ _ AdaptiveBackgroundLearning.Reachable.init
  have h2 : AdaptiveBackgroundLearning.Reachable c6s2 :=
    AdaptiveBackgroundLearning.Reachable.step _ _
      (AdaptiveBackgroundLearning.Reachable.step _ _ h1)
  exact ⟨AdaptiveBackgroundLearning.Reachable.set _ _ h2, by decide, by decide⟩

/-- Witness for C6: under tame reachability, after a cap of 2 and two
process calls the counter (2) is within the cap (2). -/
theorem claim_C6_witness :
    c6s2.currentLearningFrame ≤ c6s2.maxLearningFrames :=
  claim_C6.2.2.2 c6s2
    (AdaptiveBackgroundLearning.ReachableTame.step _ _
      (AdaptiveBackgroundLearning.ReachableTame.step _ _
        (AdaptiveBackgroundLearning.ReachableTame.set _ _ (by decide)
          AdaptiveBackgroundLearning.ReachableTame.init)))
    (by decide)

/-! ### Claim C2 -/

/-- The state obtained by applying every pair of `l` in order, ignoring
failures (used to name the state reached when a later pair throws). -/
def applyAll {σ : Type} (apply1 : σ → String × String → Option σ)
    (s : σ) (l : List (String × String)) : σ :=
  l.foldl (fun s p => (apply1 s p).getD s) s

theorem runParams_append_ok {σ : Type} (apply1 : σ → String × String → Option σ)
    (okF : String × String → Bool)
    (hok : ∀ (s : σ) (kv : String × String), (apply1 s kv).isSome = okF kv)
    (l : List (String × String)) :
    ∀ (s : σ) (rest : List (String × String)), (∀ p ∈ l, okF p = true) →
      runParams apply1 s (l ++ rest) = runParams apply1 (applyAll apply1 s l) rest := by
  induction l with
  | nil => intro s rest _; rfl
  | cons kv l' ih =>
    intro s rest h
    rw [List.cons_append, runParams]
    have hs : (apply1 s kv).isSome = true := by
      rw [hok]
      exact h kv (by simp)
    obtain ⟨s', hs'⟩ := Option.isSome_iff_exists.mp hs
    rw [hs']
    have happ : applyAll apply1 s (kv :: l') = applyAll apply1 s' l' := by
      simp [applyAll, hs']
    rw [happ]
    exact ih s' rest (fun p hp => h p (by simp [hp]))

/-- Processing stops at the first failing pair: the state keeps exactly
the mutations of the preceding pairs and the error propagates. -/
theorem runParams_fail {σ : Type} (apply1 : σ → String × String → Option σ)
    (okF : String × String → Bool)
    (hok : ∀ (s : σ) (kv : String × String), (apply1 s kv).isSome = okF kv)
    (s : σ) (pre post : List (String × String)) (kv : String × String)
    (hpre : ∀ p ∈ pre, okF p = true) (hkv : okF kv = false) :
    runParams apply1 s (pre ++ kv :: post) = (applyAll apply1 s pre, true) := by
  rw [runParams_append_ok apply1 okF hok pre s (kv :: post) hpre, runParams]
  have hnone : apply1 (applyAll apply1 s pre) kv = none := by
    have h := hok (applyAll apply1 s pre) kv
    rw [hkv] at h
    exact Option.not_isSome_iff_eq_none.mp (by simp [h])
  rw [hnone]

theorem applyAll_lookup {σ : Type} (apply1 : σ → String × String → Option σ)
    (getP : σ → List (String × String))
    (hstep : ∀ (s : σ) (p : String × String) (k : String), p.1 ≠ k →
      ((getP ((apply1 s p).getD s)).lookup k) = (getP s).lookup k)
    (l : List (String × String)) :
    ∀ (s : σ) (k : String), (∀ p ∈ l, p.1 ≠ k) →
      (getP (applyAll apply1 s l)).lookup k = (getP s).lookup k := by
  induction l with
  | nil => intro s k _; rfl
  | cons p l' ih =>
    intro s k h
    have happ : applyAll apply1 s (p :: l') = applyAll apply1 ((apply1 s p).getD s) l' := by
      simp [applyAll]
    rw [happ, ih _ k (fun q hq => h q (by simp [hq])), hstep s p k (h p (by simp))]

/-- Which pairs `FrameDifference::setParams` can process without
throwing. -/
def fdOk (kv : String × String) : Bool :=
  if kv.1 = "threshold" then (stoi kv.2).isSome else true

theorem fd_apply_isSome (s : FrameDifference.State) (kv : String × String) :
    (FrameDifference.applyParam s kv).isSome = fdOk kv := by
  simp only [FrameDifference.applyParam, fdOk]
  by_cases h1 : kv.1 = "enableThreshold"
  · have h2 : kv.1 ≠ "threshold" := by rw [h1]; decide
    rw [if_pos h1, if_neg h2]
    rfl
  · rw [if_neg h1]
    by_cases h2 : kv.1 = "threshold"
    · rw [if_pos h2, if_pos h2]
      cases stoi kv.2 <;> rfl
    · rw [if_neg h2, if_neg h2]
      rfl

/-- Which pairs `AdaptiveBackgroundLearning::setParams` can process
without throwing. -/
def ablOk (kv : String × String) : Bool :=
  if kv.1 = "alpha" then (stod kv.2).isSome
  else if kv.1 = "maxLearningFrames" then (stoi kv.2).isSome
  else if kv.1 = "threshold" then (stoi kv.2).isSome
  else true

theorem abl_apply_isSome (s : AdaptiveBackgroundLearning.State) (kv : String × String) :
    (AdaptiveBackgroundLearning.applyParam s kv).isSome = ablOk kv := by
  simp only [AdaptiveBackgroundLearning.applyParam, ablOk]
  by_cases h1 : kv.1 = "alpha"
  · rw [if_pos h1, if_pos h1]
    cases stod kv.2 <;> rfl
  · rw [if_neg h1, if_neg h1]
    by_cases h2 : kv.1 = "maxLearningFrames"
    · rw [if_pos h2, if_pos h2]
      cases stoi kv.2 <;> rfl
    · rw [if_neg h2, if_neg h2]
      by_cases h3 : kv.1 = "enableThreshold"
      · have h4 : kv.1 ≠ "threshold" := by rw [h3]; decide
        rw [if_pos h3, if_neg h4]
        rfl
      · rw [if_neg h3]
        by_cases h4 : kv.1 = "threshold"
        · rw [if_pos h4, if_pos h4]
          cases stoi kv.2 <;> rfl
        · rw [if_neg h4, if_neg h4]
          rfl

/-- Which pairs `AdaptiveSelectiveBackgroundLearning::setParams` can
process without throwing. -/
def asblOk (kv : String × String) : Bool :=
  if kv.1 = "alphaLearn" then (stod kv.2).isSome
  else if kv.1 = "alphaDetection" then (stod kv.2).isSome
  else if kv.1 = "learningFrames" then (stoi kv.2).isSome
  else if kv.1 = "threshold" then (stoi kv.2).isSome
  else true

theorem asbl_apply_isSome (s : AdaptiveSelectiveBackgroundLearning.State)
    (kv : String × String) :
    (AdaptiveSelectiveBackgroundLearning.applyParam s kv).isSome = asblOk kv := by
  simp only [AdaptiveSelectiveBackgroundLearning.applyParam, asblOk]
  by_cases h1 : kv.1 = "alphaLearn"
  · rw [if_pos h1, if_pos h1]
    cases stod kv.2 <;> rfl
  · rw [if_neg h1, if_neg h1]
    by_cases h2 : kv.1 = "alphaDetection"
    · rw [if_pos h2, if_pos h2]
      cases stod kv.2 <;> rfl
    · rw [if_neg h2, if_neg h2]
      by_cases h3 : kv.1 = "learningFrames"
      · rw [if_pos h3, if_pos h3]
        cases stoi kv.2 <;> rfl
      · rw [if_neg h3, if_neg h3]
        by_cases h4 : kv.1 = "threshold"
        · rw [if_pos h4, if_pos h4]
          cases stoi kv.2 <;> rfl
        · rw [if_neg h4, if_neg h4]
          rfl

/-- Which pairs `WeightedMovingMean::setParams` can process without
throwing. -/
def wmmOk (kv : String × String) : Bool :=
  if kv.1 = "threshold" then (stoi kv.2).isSome else true

theorem wmm_apply_isSome (s : WeightedMovingMean.State) (kv : String × String) :
    (WeightedMovingMean.applyParam s kv).isSome = wmmOk kv := by
  simp only [WeightedMovingMean.applyParam, wmmOk]
  by_cases h1 : kv.1 = "enableWeight"
  · have h2 : kv.1 ≠ "threshold" := by rw [h1]; decide
    rw [if_pos h1, if_neg h2]
    rfl
  · rw [if_neg h1]
    by_cases h2 : kv.1 = "enableThreshold"
    · have h3 : kv.1 ≠ "threshold" := by rw [h2]; decide
      rw [if_pos h2, if_neg h3]
      rfl
    · rw [if_neg h2]
      by_cases h3 : kv.1 = "threshold"
      · rw [if_pos h3, if_pos h3]
        cases stoi kv.2 <;> rfl
      · rw [if_neg h3, if_neg h3]
        rfl

theorem ne_key_beq (k a : String) (hne : k ≠ a) : (k == a) = false :=
  beq_eq_false_iff_ne.mpr hne

theorem fd_lookup_ne (s : FrameDifference.State) (p : String × String) (k : String)
    (hne : p.1 ≠ k) :
    ((FrameDifference.getParams ((FrameDifference.applyParam s p).getD s)).lookup k) =
      (FrameDifference.getParams s).lookup k := by
  simp only [FrameDifference.applyParam]
  by_cases h1 : p.1 = "enableThreshold"
  · rw [if_pos h1, Option.getD_some]
    have hk := ne_key_beq k "enableThreshold" (fun hh => hne (by rw [h1, hh]))
    simp [FrameDifference.getParams, List.lookup, hk]
  · rw [if_neg h1]
    by_cases h2 : p.1 = "threshold"
    · rw [if_pos h2]
      cases hst : stoi p.2 with
      | none => rfl
      | some z =>
        show (FrameDifference.getParams { s with threshold := z }).lookup k = _
        have hk := ne_key_beq k "threshold" (fun hh => hne (by rw [h2, hh]))
        simp [FrameDifference.getParams, List.lookup, hk]
    · rw [if_neg h2, Option.getD_some]

theorem abl_lookup_ne (s : AdaptiveBackgroundLearning.State) (p : String × String)
    (k : String) (hne : p.1 ≠ k) :
    ((AdaptiveBackgroundLearning.getParams
      ((AdaptiveBackgroundLearning.applyParam s p).getD s)).lookup k) =
      (AdaptiveBackgroundLearning.getParams s).lookup k := by
  simp only [AdaptiveBackgroundLearning.applyParam]
  by_cases h1 : p.1 = "alpha"
  · rw [if_pos h1]
    cases hst : stod p.2 with
    | none => rfl
    | some v =>
      show (AdaptiveBackgroundLearning.getParams { s with alpha := v }).lookup k = _
      have hk := ne_key_beq k "alpha" (fun hh => hne (by rw [h1, hh]))
      simp [AdaptiveBackgroundLearning.getParams, List.lookup, hk]
  · rw [if_neg h1]
    by_cases h2 : p.1 = "maxLearningFrames"
    · rw [if_pos h2]
      cases hst : stoi p.2 with
      | none => rfl
      | some z =>
        show (AdaptiveBackgroundLearning.getParams
          { s with maxLearningFrames := z }).lookup k = _
        have hk := ne_key_beq k "maxLearningFrames" (fun hh => hne (by rw [h2, hh]))
        simp [AdaptiveBackgroundLearning.getParams, List.lookup, hk]
    · rw [if_neg h2]
      by_cases h3 : p.1 = "enableThreshold"
      · rw [if_pos h3, Option.getD_some]
        have hk := ne_key_beq k "enableThreshold" (fun hh => hne (by rw [h3, hh]))
        simp [AdaptiveBackgroundLearning.getParams, List.lookup, hk]
      · rw [if_neg h3]
        by_cases h4 : p.1 = "threshold"
        · rw [if_pos h4]
          cases hst : stoi p.2 with
          | none => rfl
          | some z =>
            show (AdaptiveBackgroundLearning.getParams
              { s with threshold := z }).lookup k = _
            have hk := ne_key_beq k "threshold" (fun hh => hne (by rw [h4, hh]))
            simp [AdaptiveBackgroundLearning.getParams, List.lookup, hk]
        · rw [if_neg h4, Option.getD_some]

theorem asbl_lookup_ne (s : AdaptiveSelectiveBackgroundLearning.State)
    (p : String × String) (k : String) (hne : p.1 ≠ k) :
    ((AdaptiveSelectiveBackgroundLearning.getParams
      ((AdaptiveSelectiveBackgroundLearning.applyParam s p).getD s)).lookup k) =
      (AdaptiveSelectiveBackgroundLearning.getParams s).lookup k := by
  simp only [AdaptiveSelectiveBackgroundLearning.applyParam]
  by_cases h1 : p.1 = "alphaLearn"
  · rw [if_pos h1]
    cases hst : stod p.2 with
    | none => rfl
    | some v =>
      show (AdaptiveSelectiveBackgroundLearning.getParams
        { s with alphaLearn := v }).lookup k = _
      have hk := ne_key_beq k "alphaLearn" (fun hh => hne (by rw [h1, hh]))
      simp [AdaptiveSelectiveBackgroundLearning.getParams, List.lookup, hk]
  · rw [if_neg h1]
    by_cases h2 : p.1 = "alphaDetection"
    · rw [if_pos h2]
      cases hst : stod p.2 with
      | none => rfl
      | some v =>
        show (AdaptiveSelectiveBackgroundLearning.getParams
          { s with alphaDetection := v }).lookup k = _
        have hk := ne_key_beq k "alphaDetection" (fun hh => hne (by rw [h2, hh]))
        simp [AdaptiveSelectiveBackgroundLearning.getParams, List.lookup, hk]
    · rw [if_neg h2]
      by_cases h3 : p.1 = "learningFrames"
      · rw [if_pos h3]
        cases hst : stoi p.2 with
        | none => rfl
        | some z =>
          show (AdaptiveSelectiveBackgroundLearning.getParams
            { s with learningFrames := z }).lookup k = _
          have hk := ne_key_beq k "learningFrames" (fun hh => hne (by rw [h3, hh]))
          simp [AdaptiveSelectiveBackgroundLearning.getParams, List.lookup, hk]
      · rw [if_neg h3]
        by_cases h4 : p.1 = "threshold"
        · rw [if_pos h4]
          cases hst : stoi p.2 with
          | none => rfl
          | some z =>
            show (AdaptiveSelectiveBackgroundLearning.getParams
              { s with threshold := z }).lookup k = _
            have hk := ne_key_beq k "threshold" (fun hh => hne (by rw [h4, hh]))
            simp [AdaptiveSelectiveBackgroundLearning.getParams, List.lookup, hk]
        · rw [if_neg h4, Option.getD_some]

theorem wmm_lookup_ne (s : WeightedMovingMean.State) (p : String × String) (k : String)
    (hne : p.1 ≠ k) :
    ((WeightedMovingMean.getParams ((WeightedMovingMean.applyParam s p).getD s)).lookup k) =
      (WeightedMovingMean.getParams s).lookup k := by
  simp only [WeightedMovingMean.applyParam]
  by_cases h1 : p.1 = "enableWeight"
  · rw [if_pos h1, Option.getD_some]
    have hk := ne_key_beq k "enableWeight" (fun hh => hne (by rw [h1, hh]))
    simp [WeightedMovingMean.getParams, List.lookup, hk]
  · rw [if_neg h1]
    by_cases h2 : p.1 = "enableThreshold"
    · rw [if_pos h2, Option.getD_some]
      have hk := ne_key_beq k "enableThreshold" (fun hh => hne (by rw [h2, hh]))
      simp [WeightedMovingMean.getParams, List.lookup, hk]
    · rw [if_neg h2]
      by_cases h3 : p.1 = "threshold"
      · rw [if_pos h3]
        cases hst : stoi p.2 with
        | none => rfl
        | some z =>
          show (WeightedMovingMean.getParams { s with threshold := z }).lookup k = _
          have hk := ne_key_beq k "threshold" (fun hh => hne (by rw [h3, hh]))
          simp [WeightedMovingMean.getParams, List.lookup, hk]
      · rw [if_neg h3, Option.getD_some]

/-- C2 (amended): for every strategy, when the pairs of the map (in its
key-sorted iteration order) contain one failing pair, `setParams`
applies exactly the pairs strictly before the failing one, reports the
error, and leaves the rest — including every pair after the failing
one — unapplied; the failing key's own observable value is unchanged
(assuming, as for a `std::map`, that the keys are distinct). -/
theorem claim_C2 :
    (∀ (s : FrameDifference.State) (pre post : List (String × String))
      (kv : String × String),
      (∀ p ∈ pre, fdOk p = true) → fdOk kv = false →
      (FrameDifference.setParams s (pre ++ kv :: post) =
        (applyAll FrameDifference.applyParam s pre, true)) ∧
      (kv.1 ∉ pre.map Prod.fst →
        (FrameDifference.getParams (applyAll FrameDifference.applyParam s pre)).lookup kv.1 =
          (FrameDifference.getParams s).lookup kv.1)) ∧
    (∀ (s : AdaptiveBackgroundLearning.State) (pre post : List (String × String))
      (kv : String × String),
      (∀ p ∈ pre, ablOk p = true) → ablOk kv = false →
      (AdaptiveBackgroundLearning.setParams s (pre ++ kv :: post) =
        (applyAll AdaptiveBackgroundLearning.applyParam s pre, true)) ∧
      (kv.1 ∉ pre.map Prod.fst →
        (AdaptiveBackgroundLearning.getParams
          (applyAll AdaptiveBackgroundLearning.applyParam s pre)).lookup kv.1 =
          (AdaptiveBackgroundLearning.getParams s).lookup kv.1)) ∧
    (∀ (s : AdaptiveSelectiveBackgroundLearning.State) (pre post : List (String × String))
      (kv : String × String),
      (∀ p ∈ pre, asblOk p = true) → asblOk kv = false →
      (AdaptiveSelectiveBackgroundLearning.setParams s (pre ++ kv :: post) =
        (applyAll AdaptiveSelectiveBackgroundLearning.applyParam s pre, true)) ∧
      (kv.1 ∉ pre.map Prod.fst →
        (AdaptiveSelectiveBackgroundLearning.getParams
          (applyAll AdaptiveSelectiveBackgroundLearning.applyParam s pre)).lookup kv.1 =
          (AdaptiveSelectiveBackgroundLearning.getParams s).lookup kv.1)) ∧
    (∀ (s : WeightedMovingMean.State) (pre post : List (String × String))
      (kv : String × String),
      (∀ p ∈ pre, wmmOk p = true) → wmmOk kv = false →
      (WeightedMovingMean.setParams s (pre ++ kv :: post) =
        (applyAll WeightedMovingMean.applyParam s pre, true)) ∧
      (kv.1 ∉ pre.map Prod.fst →
        (WeightedMovingMean.getParams
          (applyAll WeightedMovingMean.applyParam s pre)).lookup kv.1 =
          (WeightedMovingMean.getParams s).lookup kv.1)) := by
  refine ⟨?_, ?_, ?_, ?_⟩
  · intro s pre post kv hpre hkv
    refine ⟨runParams_fail _ fdOk fd_apply_isSome s pre post kv hpre hkv, ?_⟩
    intro hnot
    refine applyAll_lookup _ _ fd_lookup_ne pre s kv.1 (fun p hp hh => hnot ?_)
    rw [← hh]
    exact List.mem_map_of_mem Prod.fst hp
  · intro s pre post kv hpre hkv
    refine ⟨runParams_fail _ ablOk abl_apply_isSome s pre post kv hpre hkv, ?_⟩
    intro hnot
    refine applyAll_lookup _ _ abl_lookup_ne pre s kv.1 (fun p hp hh => hnot ?_)
    rw [← hh]
    exact List.mem_map_of_mem Prod.fst hp
  · intro s pre post kv hpre hkv
    refine ⟨runParams_fail _ asblOk asbl_apply_isSome s pre post kv hpre hkv, ?_⟩
    intro hnot
    refine applyAll_lookup _ _ asbl_lookup_ne pre s kv.1 (fun p hp hh => hnot ?_)
    rw [← hh]
    exact List.mem_map_of_mem Prod.fst hp
  · intro s pre post kv hpre hkv
    refine ⟨runParams_fail _ wmmOk wmm_apply_isSome s pre post kv hpre hkv, ?_⟩
    intro hnot
    refine applyAll_lookup _ _ wmm_lookup_ne pre s kv.1 (fun p hp hh => hnot ?_)
    rw [← hh]
    exact List.mem_map_of_mem Prod.fst hp

/-- Counterexample for C2 as stated: on AdaptiveBackgroundLearning, a
map whose first (in key order) pair `alpha ↦ "x"` fails to parse leaves
the later unrelated recognized pair `threshold ↦ "20"` unapplied: the
state is unchanged (threshold still 15) and the error is reported. -/
theorem claim_C2_counterexample :
    AdaptiveBackgroundLearning.setParams AdaptiveBackgroundLearning.default
      [("alpha", "x"), ("threshold", "20")] =
      (AdaptiveBackgroundLearning.default, true) ∧
    AdaptiveBackgroundLearning.default.threshold = 15 :=
  ⟨rfl, rfl⟩

/-- Witness for C2: with prefix `alpha ↦ "0.500000"` (parses), failing
pair `maxLearningFrames ↦ "x"`, and suffix `threshold ↦ "20"`, exactly
the prefix is applied, the error propagates, and the failing key's
observable value is unchanged. -/
theorem claim_C2_witness :
    (AdaptiveBackgroundLearning.setParams AdaptiveBackgroundLearning.default
      ([("alpha", "0.500000")] ++ ("maxLearningFrames", "x") :: [("threshold", "20")]) =
      (applyAll AdaptiveBackgroundLearning.applyParam AdaptiveBackgroundLearning.default
        [("alpha", "0.500000")], true)) ∧
    ((AdaptiveBackgroundLearning.getParams
      (applyAll AdaptiveBackgroundLearning.applyParam AdaptiveBackgroundLearning.default
        [("alpha", "0.500000")])).lookup "maxLearningFrames" =
      (AdaptiveBackgroundLearning.getParams
        AdaptiveBackgroundLearning.default).lookup "maxLearningFrames") :=
  ⟨(claim_C2.2.1 AdaptiveBackgroundLearning.default [("alpha", "0.500000")]
      [("threshold", "20")] ("maxLearningFrames", "x") (by decide) (by decide)).1,
   (claim_C2.2.1 AdaptiveBackgroundLearning.default [("alpha", "0.500000")]
      [("threshold", "20")] ("maxLearningFrames", "x") (by decide) (by decide)).2
      (by decide)⟩

/-! ### Claim C8 -/

theorem boolString_beq_true (b : Bool) : (boolString b == "true") = b := by
  cases b <;> decide

/-- The value actually stored after parsing back a six-decimal formatted
rational: its rounding to six decimals. -/
def q6 (q : ℚ) : ℚ := (cvRound (q * 1000000) : ℚ) / 1000000

theorem stod_fmt6_q6 (q : ℚ) : stod (fmt6 q) = some (q6 q) := stod_fmt6 q

theorem fmt6_q6 (q : ℚ) : fmt6 (q6 q) = fmt6 q := fmt6_stable q

theorem runParams_nil {σ : Type} (apply1 : σ → String × String → Option σ) (s : σ) :
    runParams apply1 s [] = (s, false) := rfl

theorem runParams_cons_some {σ : Type} (apply1 : σ → String × String → Option σ)
    (s s' : σ) (kv : String × String) (rest : List (String × String))
    (h : apply1 s kv = some s') :
    runParams apply1 s (kv :: rest) = runParams apply1 s' rest := by
  show (match apply1 s kv with
    | some t => runParams apply1 t rest
    | none => (s, true)) = runParams apply1 s' rest
  rw [h]

theorem fd_roundtrip (s : FrameDifference.State) :
    FrameDifference.setParams s (FrameDifference.getParams s) = (s, false) := by
  have h1 : FrameDifference.applyParam s
      ("enableThreshold", boolString s.enableThreshold) = some s := by
    show some { s with enableThreshold := (boolString s.enableThreshold == "true") } = some s
    rw [boolString_beq_true]
  have h2 : FrameDifference.applyParam s ("threshold", intToString s.threshold) = some s := by
    show (stoi (intToString s.threshold)).map (fun z => { s with threshold := z }) = some s
    rw [stoi_intToString]
    rfl
  show runParams FrameDifference.applyParam s
    [("enableThreshold", boolString s.enableThreshold),
     ("threshold", intToString s.threshold)] = (s, false)
  rw [runParams_cons_some _ _ _ _ _ h1, runParams_cons_some _ _ _ _ _ h2, runParams_nil]

theorem abl_roundtrip (s : AdaptiveBackgroundLearning.State) :
    AdaptiveBackgroundLearning.setParams s (AdaptiveBackgroundLearning.getParams s) =
      ({ s with alpha := q6 s.alpha }, false) := by
  have ha : AdaptiveBackgroundLearning.applyParam s ("alpha", fmt6 s.alpha) =
      some { s with alpha := q6 s.alpha } := by
    show (stod (fmt6 s.alpha)).map (fun v => { s with alpha := v }) =
      (some { s with alpha := q6 s.alpha } : Option AdaptiveBackgroundLearning.State)
    rw [stod_fmt6_q6]
    rfl
  have hb : AdaptiveBackgroundLearning.applyParam { s with alpha := q6 s.alpha }
      ("enableThreshold", boolString s.enableThreshold) =
      some { s with alpha := q6 s.alpha } := by
    show (some { s with alpha := q6 s.alpha, enableThreshold := (boolString s.enableThreshold == "true") } :
      Option AdaptiveBackgroundLearning.State) =
      (some { s with alpha := q6 s.alpha } : Option AdaptiveBackgroundLearning.State)
    rw [boolString_beq_true]
  have hm : AdaptiveBackgroundLearning.applyParam { s with alpha := q6 s.alpha }
      ("maxLearningFrames", intToString s.maxLearningFrames) =
      some { s with alpha := q6 s.alpha } := by
    show (stoi (intToString s.maxLearningFrames)).map
      (fun z => { s with alpha := q6 s.alpha, maxLearningFrames := z }) =
      (some { s with alpha := q6 s.alpha } : Option AdaptiveBackgroundLearning.State)
    rw [stoi_intToString]
    rfl
  have ht : AdaptiveBackgroundLearning.applyParam { s with alpha := q6 s.alpha }
      ("threshold", intToString s.threshold) =
      some { s with alpha := q6 s.alpha } := by
    show (stoi (intToString s.threshold)).map
      (fun z => { s with alpha := q6 s.alpha, threshold := z }) =
      (some { s with alpha := q6 s.alpha } : Option AdaptiveBackgroundLearning.State)
    rw [stoi_intToString]
    rfl
  show runParams AdaptiveBackgroundLearning.applyParam s
    [("alpha", fmt6 s.alpha),
     ("enableThreshold", boolString s.enableThreshold),
     ("maxLearningFrames", intToString s.maxLearningFrames),
     ("threshold", intToString s.threshold)] = ({ s with alpha := q6 s.alpha }, false)
  rw [runParams_cons_some _ _ _ _ _ ha, runParams_cons_some _ _ _ _ _ hb,
    runParams_cons_some _ _ _ _ _ hm, runParams_cons_some _ _ _ _ _ ht, runParams_nil]

theorem asbl_roundtrip (s : AdaptiveSelectiveBackgroundLearning.State) :
    AdaptiveSelectiveBackgroundLearning.setParams s
      (AdaptiveSelectiveBackgroundLearning.getParams s) =
      ({ s with alphaDetection := q6 s.alphaDetection, alphaLearn := q6 s.alphaLearn }, false) := by
  have hd : AdaptiveSelectiveBackgroundLearning.applyParam s
      ("alphaDetection", fmt6 s.alphaDetection) =
      some { s with alphaDetection := q6 s.alphaDetection } := by
    show (stod (fmt6 s.alphaDetection)).map (fun v => { s with alphaDetection := v }) =
      (some { s with alphaDetection := q6 s.alphaDetection } :
        Option AdaptiveSelectiveBackgroundLearning.State)
    rw [stod_fmt6_q6]
    rfl
  have hl : AdaptiveSelectiveBackgroundLearning.applyParam
      { s with alphaDetection := q6 s.alphaDetection } ("alphaLearn", fmt6 s.alphaLearn) =
      some { s with alphaDetection := q6 s.alphaDetection, alphaLearn := q6 s.alphaLearn } := by
    show (stod (fmt6 s.alphaLearn)).map
      (fun v => { s with alphaDetection := q6 s.alphaDetection, alphaLearn := v }) =
      (some { s with alphaDetection := q6 s.alphaDetection, alphaLearn := q6 s.alphaLearn } :
        Option AdaptiveSelectiveBackgroundLearning.State)
    rw [stod_fmt6_q6]
    rfl
  have hf : AdaptiveSelectiveBackgroundLearning.applyParam
      { s with alphaDetection := q6 s.alphaDetection, alphaLearn := q6 s.alphaLearn }
      ("learningFrames", intToString s.learningFrames) =
      some { s with alphaDetection := q6 s.alphaDetection, alphaLearn := q6 s.alphaLearn } := by
    show (stoi (intToString s.learningFrames)).map
      (fun z => { s with alphaDetection := q6 s.alphaDetection, alphaLearn := q6 s.alphaLearn, learningFrames := z }) =
      (some { s with alphaDetection := q6 s.alphaDetection, alphaLearn := q6 s.alphaLearn } :
        Option AdaptiveSelectiveBackgroundLearning.State)
    rw [stoi_intToString]
    rfl
  have ht : AdaptiveSelectiveBackgroundLearning.applyParam
      { s with alphaDetection := q6 s.alphaDetection, alphaLearn := q6 s.alphaLearn }
      ("threshold", intToString s.threshold) =
      some { s with alphaDetection := q6 s.alphaDetection, alphaLearn := q6 s.alphaLearn } := by
    show (stoi (intToString s.threshold)).map
      (fun z => { s with alphaDetection := q6 s.alphaDetection, alphaLearn := q6 s.alphaLearn, threshold := z }) =
      (some { s with alphaDetection := q6 s.alphaDetection, alphaLearn := q6 s.alphaLearn } :
        Option AdaptiveSelectiveBackgroundLearning.State)
    rw [stoi_intToString]
    rfl
  show runParams AdaptiveSelectiveBackgroundLearning.applyParam s
    [("alphaDetection", fmt6 s.alphaDetection),
     ("alphaLearn", fmt6 s.alphaLearn),
     ("learningFrames", intToString s.learningFrames),
     ("threshold", intToString s.threshold)] =
    ({ s with alphaDetection := q6 s.alphaDetection, alphaLearn := q6 s.alphaLearn }, false)
  rw [runParams_cons_some _ _ _ _ _ hd, runParams_cons_some _ _ _ _ _ hl,
    runParams_cons_some _ _ _ _ _ hf, runParams_cons_some _ _ _ _ _ ht, runParams_nil]

theorem wmm_roundtrip (s : WeightedMovingMean.State) :
    WeightedMovingMean.setParams s (WeightedMovingMean.getParams s) = (s, false) := by
  have h1 : WeightedMovingMean.applyParam s
      ("enableThreshold", boolString s.enableThreshold) = some s := by
    show some { s with enableThreshold := (boolString s.enableThreshold == "true") } = some s
    rw [boolString_beq_true]
  have h2 : WeightedMovingMean.applyParam s
      ("enableWeight", boolString s.enableWeight) = some s := by
    show some { s with enableWeight := (boolString s.enableWeight == "true") } = some s
    rw [boolString_beq_true]
  have h3 : WeightedMovingMean.applyParam s ("threshold", intToString s.threshold) = some s := by
    show (stoi (intToString s.threshold)).map (fun z => { s with threshold := z }) = some s
    rw [stoi_intToString]
    rfl
  show runParams WeightedMovingMean.applyParam s
    [("enableThreshold", boolString s.enableThreshold),
     ("enableWeight", boolString s.enableWeight),
     ("threshold", intToString s.threshold)] = (s, false)
  rw [runParams_cons_some _ _ _ _ _ h1, runParams_cons_some _ _ _ _ _ h2,
    runParams_cons_some _ _ _ _ _ h3, runParams_nil]

/-- C8: for every strategy and every parameter state (in particular
every reachable one), feeding the exact map returned by `getParams` back
into `setParams` succeeds and leaves a subsequent `getParams` result
equal to that map (conjuncts 1–4; for FrameDifference and
WeightedMovingMean even the internal state is unchanged, for the
adaptive strategies the floating `alpha` fields are replaced by their
six-decimal roundings, which format back to the same strings); and
setting `"threshold"` to `"20"` then reading it back yields `"20"`
(conjuncts 5–8). -/
theorem claim_C8 :
    (∀ s : FrameDifference.State,
      (FrameDifference.setParams s (FrameDifference.getParams s)).2 = false ∧
      FrameDifference.getParams
        (FrameDifference.setParams s (FrameDifference.getParams s)).1 =
        FrameDifference.getParams s) ∧
    (∀ s : AdaptiveBackgroundLearning.State,
      (AdaptiveBackgroundLearning.setParams s (AdaptiveBackgroundLearning.getParams s)).2 =
        false ∧
      AdaptiveBackgroundLearning.getParams
        (AdaptiveBackgroundLearning.setParams s (AdaptiveBackgroundLearning.getParams s)).1 =
        AdaptiveBackgroundLearning.getParams s) ∧
    (∀ s : AdaptiveSelectiveBackgroundLearning.State,
      (AdaptiveSelectiveBackgroundLearning.setParams s
        (AdaptiveSelectiveBackgroundLearning.getParams s)).2 = false ∧
      AdaptiveSelectiveBackgroundLearning.getParams
        (AdaptiveSelectiveBackgroundLearning.setParams s
          (AdaptiveSelectiveBackgroundLearning.getParams s)).1 =
        AdaptiveSelectiveBackgroundLearning.getParams s) ∧
    (∀ s : WeightedMovingMean.State,
      (WeightedMovingMean.setParams s (WeightedMovingMean.getParams s)).2 = false ∧
      WeightedMovingMean.getParams
        (WeightedMovingMean.setParams s (WeightedMovingMean.getParams s)).1 =
        WeightedMovingMean.getParams s) ∧
    (∀ s : FrameDifference.State,
      (FrameDifference.getParams
        (FrameDifference.setParams s [("threshold", "20")]).1).lookup "threshold" =
        some "20") ∧
    (∀ s : AdaptiveBackgroundLearning.State,
      (AdaptiveBackgroundLearning.getParams
        (AdaptiveBackgroundLearning.setParams s [("threshold", "20")]).1).lookup "threshold" =
        some "20") ∧
    (∀ s : AdaptiveSelectiveBackgroundLearning.State,
      (AdaptiveSelectiveBackgroundLearning.getParams
        (AdaptiveSelectiveBackgroundLearning.setParams s
          [("threshold", "20")]).1).lookup "threshold" = some "20") ∧
    (∀ s : WeightedMovingMean.State,
      (WeightedMovingMean.getParams
        (WeightedMovingMean.setParams s [("threshold", "20")]).1).lookup "threshold" =
        some "20") := by
  have hb1 : (("threshold" : String) == "alpha") = false := by decide
  have hb2 : (("threshold" : String) == "enableThreshold") = false := by decide
  have hb3 : (("threshold" : String) == "maxLearningFrames") = false := by decide
  have hb4 : (("threshold" : String) == "threshold") = true := by decide
  have hb5 : (("threshold" : String) == "alphaDetection") = false := by decide
  have hb6 : (("threshold" : String) == "alphaLearn") = false := by decide
  have hb7 : (("threshold" : String) == "learningFrames") = false := by decide
  have hb8 : (("threshold" : String) == "enableWeight") = false := by decide
  have h20 : stoi "20" = some 20 := by decide
  have hstr20 : intToString 20 = "20" := by decide
  refine ⟨?_, ?_, ?_, ?_, ?_, ?_, ?_, ?_⟩
  · intro s
    rw [fd_roundtrip s]
    exact ⟨rfl, rfl⟩
  · intro s
    rw [abl_roundtrip s]
    refine ⟨rfl, ?_⟩
    show [("alpha", fmt6 (q6 s.alpha)),
      ("enableThreshold", boolString s.enableThreshold),
      ("maxLearningFrames", intToString s.maxLearningFrames),
      ("threshold", intToString s.threshold)] = AdaptiveBackgroundLearning.getParams s
    rw [fmt6_q6]
    rfl
  · intro s
    rw [asbl_roundtrip s]
    refine ⟨rfl, ?_⟩
    show [("alphaDetection", fmt6 (q6 s.alphaDetection)),
      ("alphaLearn", fmt6 (q6 s.alphaLearn)),
      ("learningFrames", intToString s.learningFrames),
      ("threshold", intToString s.threshold)] =
      AdaptiveSelectiveBackgroundLearning.getParams s
    rw [fmt6_q6, fmt6_q6]
    rfl
  · intro s
    rw [wmm_roundtrip s]
    exact ⟨rfl, rfl⟩
  · intro s
    have h : FrameDifference.applyParam s ("threshold", "20") =
        some { s with threshold := 20 } := by
      show (stoi "20").map (fun z => { s with threshold := z }) =
        (some { s with threshold := 20 } : Option FrameDifference.State)
      rw [h20]
      rfl
    have hrun : FrameDifference.setParams s [("threshold", "20")] =
        ({ s with threshold := 20 }, false) := by
      show runParams FrameDifference.applyParam s [("threshold", "20")] =
        ({ s with threshold := 20 }, false)
      rw [runParams_cons_some _ _ _ _ _ h, runParams_nil]
    rw [hrun]
    show List.lookup "threshold"
      [("enableThreshold", boolString s.enableThreshold),
       ("threshold", intToString 20)] = some "20"
    simp only [List.lookup, hb2, hb4, hstr20]
  · intro s
    have h : AdaptiveBackgroundLearning.applyParam s ("threshold", "20") =
        some { s with threshold := 20 } := by
      show (stoi "20").map (fun z => { s with threshold := z }) =
        (some { s with threshold := 20 } : Option AdaptiveBackgroundLearning.State)
      rw [h20]
      rfl
    have hrun : AdaptiveBackgroundLearning.setParams s [("threshold", "20")] =
        ({ s with threshold := 20 }, false) := by
      show runParams AdaptiveBackgroundLearning.applyParam s [("threshold", "20")] =
        ({ s with threshold := 20 }, false)
      rw [runParams_cons_some _ _ _ _ _ h, runParams_nil]
    rw [hrun]
    show List.lookup "threshold"
      [("alpha", fmt6 s.alpha),
       ("enableThreshold", boolString s.enableThreshold),
       ("maxLearningFrames", intToString s.maxLearningFrames),
       ("threshold", intToString 20)] = some "20"
    simp only [List.lookup, hb1, hb2, hb3, hb4, hstr20]
  · intro s
    have h : AdaptiveSelectiveBackgroundLearning.applyParam s ("threshold", "20") =
        some { s with threshold := 20 } := by
      show (stoi "20").map (fun z => { s with threshold := z }) =
        (some { s with threshold := 20 } : Option AdaptiveSelectiveBackgroundLearning.State)
      rw [h20]
      rfl
    have hrun : AdaptiveSelectiveBackgroundLearning.setParams s [("threshold", "20")] =
        ({ s with threshold := 20 }, false) := by
      show runParams AdaptiveSelectiveBackgroundLearning.applyParam s [("threshold", "20")] =
        ({ s with threshold := 20 }, false)
      rw [runParams_cons_some _ _ _ _ _ h, runParams_nil]
    rw [hrun]
    show List.lookup "threshold"
      [("alphaDetection", fmt6 s.alphaDetection),
       ("alphaLearn", fmt6 s.alphaLearn),
       ("learningFrames", intToString s.learningFrames),
       ("threshold", intToString 20)] = some "20"
    simp only [List.lookup, hb5, hb6, hb7, hb4, hstr20]
  · intro s
    have h : WeightedMovingMean.applyParam s ("threshold", "20") =
        some { s with threshold := 20 } := by
      show (stoi "20").map (fun z => { s with threshold := z }) =
        (some { s with threshold := 20 } : Option WeightedMovingMean.State)
      rw [h20]
      rfl
    have hrun : WeightedMovingMean.setParams s [("threshold", "20")] =
        ({ s with threshold := 20 }, false) := by
      show runParams WeightedMovingMean.applyParam s [("threshold", "20")] =
        ({ s with threshold := 20 }, false)
      rw [runParams_cons_some _ _ _ _ _ h, runParams_nil]
    rw [hrun]
    show List.lookup "threshold"
      [("enableThreshold", boolString s.enableThreshold),
       ("enableWeight", boolString s.enableWeight),
       ("threshold", intToString 20)] = some "20"
    simp only [List.lookup, hb2, hb8, hb4, hstr20]

end bgslib
